import Mathlib

/-
Verification development for the Intel QuickSync decode control layer
(libavcodec/qsv.c): a shallow embedding of its error translator, codec
mapping, bitstream buffer, timestamp queue, surface pool, decode loop and
init/reinit paths, with theorems checking the specified properties.

Machine integers: the C code uses int / mfxU32 / int64_t.  None of the
operations modelled here perform arithmetic that can overflow in any
reachable state (counters are bumped by one, sizes are sums of list
lengths), so counters and sizes are modelled as Nat and timestamps as Int
with the INT64_MIN sentinel value written out explicitly.
-/

namespace QSV

/- Engine status codes, values from the external header mfx/mfxdefs.h. -/

def MFX_ERR_NONE : Int := 0

def MFX_ERR_UNKNOWN : Int := -1

def MFX_ERR_NULL_PTR : Int := -2

def MFX_ERR_UNSUPPORTED : Int := -3

def MFX_ERR_MEMORY_ALLOC : Int := -4

def MFX_ERR_NOT_ENOUGH_BUFFER : Int := -5

def MFX_ERR_INVALID_HANDLE : Int := -6

def MFX_ERR_LOCK_MEMORY : Int := -7

def MFX_ERR_NOT_INITIALIZED_QSV : Int := -8

def MFX_ERR_NOT_FOUND : Int := -9

def MFX_ERR_MORE_DATA : Int := -10

def MFX_ERR_MORE_SURFACE : Int := -11

def MFX_ERR_ABORTED : Int := -12

def MFX_ERR_DEVICE_LOST : Int := -13

def MFX_ERR_INCOMPATIBLE_VIDEO_PARAM : Int := -14

def MFX_ERR_INVALID_VIDEO_PARAM : Int := -15

def MFX_ERR_UNDEFINED_BEHAVIOR : Int := -16

def MFX_ERR_DEVICE_FAILED : Int := -17

def MFX_ERR_MORE_BITSTREAM : Int := -18

def MFX_WRN_DEVICE_BUSY : Int := 2

def MFX_WRN_VIDEO_PARAM_CHANGED : Int := 3

/- Codec fourcc values from mfx/mfxstructures.h. -/

def MFX_CODEC_AVC : Int := 541283905

def MFX_CODEC_MPEG2 : Int := 843534413

def MFX_CODEC_VC1 : Int := 540099414

/- Error codes from libavutil/error.h and errno.h (Linux values):
   AVERROR(e) = -e, AVERROR_BUG = FFERRTAG of BUG!,
   AVERROR_UNKNOWN = FFERRTAG of UNKN. -/

def ENOMEM : Int := 12

def EINVAL : Int := 22

def EIO : Int := 5

def ENOSYS : Int := 38

def EAGAIN : Int := 11

def AVERROR (e : Int) : Int := -e

def AVERROR_BUG : Int := -558323010

def AVERROR_UNKNOWN : Int := -1313558101

/- int64_t sentinel AV_NOPTS_VALUE = INT64_MIN from libavutil/avutil.h. -/

def AV_NOPTS_VALUE : Int := -9223372036854775808

/-
ff_qsv_error, qsv.c lines 35-68: translate an engine status code to a
libav error code.  The C switch is an equality dispatch with a default
clause, modelled as an if-chain.
-/

def ff_qsv_error (mfx_err : Int) : Int :=
  if mfx_err = MFX_ERR_NONE then 0
  else if mfx_err = MFX_ERR_MEMORY_ALLOC ∨ mfx_err = MFX_ERR_NOT_ENOUGH_BUFFER then
    AVERROR ENOMEM
  else if mfx_err = MFX_ERR_INVALID_HANDLE then AVERROR EINVAL
  else if mfx_err = MFX_ERR_DEVICE_FAILED ∨ mfx_err = MFX_ERR_DEVICE_LOST ∨
          mfx_err = MFX_ERR_LOCK_MEMORY then AVERROR EIO
  else if mfx_err = MFX_ERR_NULL_PTR ∨ mfx_err = MFX_ERR_UNDEFINED_BEHAVIOR ∨
          mfx_err = MFX_ERR_NOT_INITIALIZED_QSV then AVERROR_BUG
  else if mfx_err = MFX_ERR_UNSUPPORTED ∨ mfx_err = MFX_ERR_NOT_FOUND then
    AVERROR ENOSYS
  else if mfx_err = MFX_ERR_MORE_DATA ∨ mfx_err = MFX_ERR_MORE_SURFACE ∨
          mfx_err = MFX_ERR_MORE_BITSTREAM then AVERROR EAGAIN
  else if mfx_err = MFX_ERR_INCOMPATIBLE_VIDEO_PARAM ∨
          mfx_err = MFX_ERR_INVALID_VIDEO_PARAM then AVERROR EINVAL
  else AVERROR_UNKNOWN

/- The generic error taxonomy named by the specification (section 7). -/

inductive GenericError where
  | ok
  | resourceExhausted
  | invalidArgument
  | ioFailure
  | internalBug
  | unsupported
  | wouldBlock
  | unknown
  deriving DecidableEq, Repr

/- Classification of the libav error codes this layer produces into the
   specification's taxonomy (the evident value correspondence). -/

def errKind (v : Int) : GenericError :=
  if v = 0 then .ok
  else if v = AVERROR ENOMEM then .resourceExhausted
  else if v = AVERROR EINVAL then .invalidArgument
  else if v = AVERROR EIO then .ioFailure
  else if v = AVERROR_BUG then .internalBug
  else if v = AVERROR ENOSYS then .unsupported
  else if v = AVERROR EAGAIN then .wouldBlock
  else .unknown

/- Modelled from the spec: the translation table of section 4.1, written
   from the specification's words, to be compared with ff_qsv_error. -/

def specTranslate (s : Int) : GenericError :=
  if s = MFX_ERR_MEMORY_ALLOC ∨ s = MFX_ERR_NOT_ENOUGH_BUFFER then .resourceExhausted
  else if s = MFX_ERR_INVALID_HANDLE ∨ s = MFX_ERR_INVALID_VIDEO_PARAM ∨
          s = MFX_ERR_INCOMPATIBLE_VIDEO_PARAM then .invalidArgument
  else if s = MFX_ERR_DEVICE_FAILED ∨ s = MFX_ERR_DEVICE_LOST ∨
          s = MFX_ERR_LOCK_MEMORY then .ioFailure
  else if s = MFX_ERR_NULL_PTR ∨ s = MFX_ERR_UNDEFINED_BEHAVIOR ∨
          s = MFX_ERR_NOT_INITIALIZED_QSV then .internalBug
  else if s = MFX_ERR_UNSUPPORTED ∨ s = MFX_ERR_NOT_FOUND then .unsupported
  else if s = MFX_ERR_MORE_DATA ∨ s = MFX_ERR_MORE_SURFACE ∨
          s = MFX_ERR_MORE_BITSTREAM then .wouldBlock
  else if s = MFX_ERR_NONE then .ok
  else .unknown

/-
codec_id_to_mfx, qsv.c lines 70-85.  The codec identifiers are an
external enum (libavcodec/avcodec.h); the switch only distinguishes the
four supported names, so they are modelled as an inductive type whose
last constructor carries a tag standing for any other codec id.
-/

inductive CodecID where
  | h264
  | mpeg1video
  | mpeg2video
  | vc1
  | other (tag : Nat)
  deriving DecidableEq, Repr

def codec_id_to_mfx (codec_id : CodecID) : Int :=
  match codec_id with
  | .h264 => MFX_CODEC_AVC
  | .mpeg1video => MFX_CODEC_MPEG2
  | .mpeg2video => MFX_CODEC_MPEG2
  | .vc1 => MFX_CODEC_VC1
  | .other _ => AVERROR ENOSYS

/-
The bitstream buffer (mfxBitstream, used via bitstream_realloc and
bitstream_enqueue, qsv.c lines 159-196).  Data models the malloc'd byte
region (none = NULL pointer); MaxLength is the allocation size,
DataOffset/DataLength delimit the valid region.  Freshly allocated bytes
(unspecified in C) are modelled as 0; they never become visible.
Allocation success is an explicit boolean parameter.
-/

structure MfxBitstream where
  Data : Option (List Nat)
  DataOffset : Nat
  DataLength : Nat
  MaxLength : Nat
  TimeStamp : Int
  deriving DecidableEq, Repr

def bsBytes (bs : MfxBitstream) : List Nat := bs.Data.getD []

/- The visible byte region: DataLength bytes starting at DataOffset. -/

def bsVisible (bs : MfxBitstream) : List Nat :=
  ((bsBytes bs).drop bs.DataOffset).take bs.DataLength

/- Well-formedness: the backing region really has MaxLength bytes and the
   valid region lies inside it. -/

def bsWF (bs : MfxBitstream) : Prop :=
  (bsBytes bs).length = bs.MaxLength ∧
  bs.DataOffset + bs.DataLength ≤ bs.MaxLength

/- bitstream_realloc, qsv.c lines 159-176.  No-op when MaxLength >= size;
   otherwise av_realloc: on success the old MaxLength bytes are preserved
   and MaxLength becomes size; on failure av_freep(&bs->Data) frees the
   region (Data = NULL) and AVERROR(ENOMEM) is returned. -/

def bitstream_realloc (allocOk : Bool) (bs : MfxBitstream) (size : Nat) :
    Int × MfxBitstream :=
  if size ≤ bs.MaxLength then (0, bs)
  else if allocOk then
    (0, { bs with
          Data := some (bsBytes bs ++ List.replicate (size - (bsBytes bs).length) 0),
          MaxLength := size })
  else (AVERROR ENOMEM, { bs with Data := none })

/- memcpy of d into l at position pos. -/

def writeBytes (l : List Nat) (pos : Nat) (d : List Nat) : List Nat :=
  l.take pos ++ d ++ l.drop (pos + d.length)

/- bitstream_enqueue, qsv.c lines 178-196: grow to DataLength + size,
   left-compact (memmove of the valid region to position 0) when the tail
   would not fit, then memcpy the payload at DataOffset + DataLength.
   The memmove writes DataLength bytes at position 0 and leaves the bytes
   from DataLength to MaxLength as they were. -/

def bitstream_enqueue (allocOk : Bool) (bs : MfxBitstream) (data : List Nat) :
    Int × MfxBitstream :=
  let bs_size := bs.DataLength + data.length
  let r := bitstream_realloc allocOk bs bs_size
  if r.1 < 0 then r
  else
    let bs1 := r.2
    let bs2 :=
      if bs1.MaxLength - bs1.DataOffset < bs_size then
        { bs1 with
          Data := some ((((bsBytes bs1).drop bs1.DataOffset).take bs1.DataLength) ++
                        (bsBytes bs1).drop bs1.DataLength),
          DataOffset := 0 }
      else bs1
    (0, { bs2 with
          Data := some (writeBytes (bsBytes bs2) (bs2.DataOffset + bs2.DataLength) data),
          DataLength := bs2.DataLength + data.length })

/- The engine consumes bytes by advancing DataOffset / shrinking
   DataLength (clamped to the valid region). -/

def bsConsume (bs : MfxBitstream) (k : Nat) : MfxBitstream :=
  let c := min k bs.DataLength
  { bs with DataOffset := bs.DataOffset + c, DataLength := bs.DataLength - c }

/- An observation language for the buffer: enqueue payloads interleaved
   with engine consumption. -/

inductive BSOp where
  | enqueue (data : List Nat)
  | consume (k : Nat)
  deriving DecidableEq, Repr

def runBS : MfxBitstream → List BSOp → Int × MfxBitstream
  | bs, [] => (0, bs)
  | bs, .enqueue d :: ops =>
    let r := bitstream_enqueue true bs d
    if r.1 < 0 then r else runBS r.2 ops
  | bs, .consume k :: ops => runBS (bsConsume bs k) ops

/- Modelled from the spec: the visible byte sequence is the concatenation
   of all enqueued payloads minus the bytes marked consumed. -/

def specVisible : List Nat → List BSOp → List Nat
  | v, [] => v
  | v, .enqueue d :: ops => specVisible (v ++ d) ops
  | v, .consume k :: ops => specVisible (v.drop k) ops

/-
The timestamp queue (QSVTimeStamp array in QSVContext, qsv.c lines
267-329): a circular buffer of (pts, dts) pairs indexed by the
monotonically increasing submission counter put_dts_cnt.
-/

structure QSVTimeStamp where
  pts : Int
  dts : Int
  deriving DecidableEq, Repr

def noPair : QSVTimeStamp := ⟨AV_NOPTS_VALUE, AV_NOPTS_VALUE⟩

structure TQ where
  timestamps : List QSVTimeStamp
  put_dts_cnt : Nat
  decoded_cnt : Nat
  deriving DecidableEq, Repr

/- realloc_timestamps, qsv.c lines 267-280 (success path): the realloc
   preserves the existing entries and the loop fills the added slots with
   the AV_NOPTS_VALUE sentinel. -/

def realloc_timestamps (ts : List QSVTimeStamp) (new_nmemb : Nat) :
    List QSVTimeStamp :=
  ts.take new_nmemb ++ List.replicate (new_nmemb - ts.length) noPair

/- reset_timestamps, qsv.c lines 87-91. -/

def reset_timestamps (q : TQ) : TQ :=
  { q with timestamps := q.timestamps.map (fun _ => noPair) }

def tq_insert (q : TQ) (pts dts : Int) : TQ :=
  let i := q.put_dts_cnt % q.timestamps.length
  { q with timestamps := q.timestamps.set i ⟨pts, dts⟩,
           put_dts_cnt := q.put_dts_cnt + 1 }

/- put_dts, qsv.c lines 308-329.  Two growth triggers, then insertion at
   put_dts_cnt % nb_timestamps.  allocOk models av_realloc_array success;
   on failure the queue is left as it was and AVERROR(ENOMEM) returned. -/

def put_dts (allocOk : Bool) (q : TQ) (pts dts : Int) : Int × TQ :=
  if q.decoded_cnt = 0 ∧ q.timestamps.length = q.put_dts_cnt then
    if allocOk then
      (0, tq_insert
            { q with timestamps :=
                realloc_timestamps q.timestamps (q.timestamps.length * 2) }
            pts dts)
    else (AVERROR ENOMEM, q)
  else if q.decoded_cnt = 1 ∧ q.timestamps.length < q.put_dts_cnt + 32 then
    if allocOk then
      (0, tq_insert
            { q with timestamps :=
                realloc_timestamps q.timestamps (q.put_dts_cnt + 32) }
            pts dts)
    else (AVERROR ENOMEM, q)
  else (0, tq_insert q pts dts)

/- get_dts, qsv.c lines 282-306: sentinel pts short-circuits; otherwise a
   linear scan for the first slot whose pts matches; no match is
   AVERROR_BUG; a match returns the paired dts and clears the slot's pts
   field to the sentinel.  The middle component is the dts out-parameter
   (none = not written). -/

def get_dts (q : TQ) (pts : Int) : Int × Option Int × TQ :=
  if pts = AV_NOPTS_VALUE then (0, some AV_NOPTS_VALUE, q)
  else
    if h : q.timestamps.findIdx (fun t => t.pts = pts) < q.timestamps.length then
      (0, some (q.timestamps.get
          ⟨q.timestamps.findIdx (fun t => t.pts = pts), h⟩).dts,
       { q with timestamps := (q.timestamps.set
           (q.timestamps.findIdx (fun t => t.pts = pts))
           ⟨AV_NOPTS_VALUE,
            (q.timestamps.get
              ⟨q.timestamps.findIdx (fun t => t.pts = pts), h⟩).dts⟩) })
    else (AVERROR_BUG, none, q)

/- The state of the queue right after ff_qsv_init sized it to n slots. -/

def freshTQ (n : Nat) : TQ :=
  { timestamps := List.replicate n noPair, put_dts_cnt := 0, decoded_cnt := 0 }

/- An observation language for the timestamp queue: put/get calls in any
   interleaving, as one decode session performs them. -/

inductive TSOp where
  | put (pts dts : Int)
  | get (pts : Int)
  deriving DecidableEq, Repr

/- Run the calls against the code model, collecting each get's
   (return code, dts out-parameter). -/

def runTS : TQ → List TSOp → TQ × List (Int × Option Int)
  | q, [] => (q, [])
  | q, .put p d :: ops => runTS (put_dts true q p d).2 ops
  | q, .get p :: ops =>
    let r := get_dts q p
    let rest := runTS r.2.2 ops
    (rest.1, (r.1, r.2.1) :: rest.2)

/- Modelled from the spec: the pending pairs as an association list in
   submission order; get returns the dts paired with the pts at put time,
   marks it consumed, and fails with the InternalBug code when the pts is
   not pending. -/

def specPut (m : List (Int × Int)) (p d : Int) : List (Int × Int) :=
  if p = AV_NOPTS_VALUE then m else m ++ [(p, d)]

def specGet (m : List (Int × Int)) (p : Int) :
    (Int × Option Int) × List (Int × Int) :=
  if p = AV_NOPTS_VALUE then ((0, some AV_NOPTS_VALUE), m)
  else
    match m.find? (fun e => e.1 = p) with
    | some e => ((0, some e.2), m.filter (fun e2 => ¬ e2.1 = p))
    | none => ((AVERROR_BUG, none), m)

def specRunTS : List (Int × Int) → List TSOp → List (Int × Option Int)
  | _, [] => []
  | m, .put p d :: ops => specRunTS (specPut m p d) ops
  | m, .get p :: ops => (specGet m p).1 :: specRunTS (specGet m p).2 ops

/- A call sequence is legal when no put resubmits a presentation
   timestamp that is still pending. -/

def legalTS : List (Int × Int) → List TSOp → Bool
  | _, [] => true
  | m, .put p d :: ops =>
    (decide (p = AV_NOPTS_VALUE) || (m.find? (fun e => e.1 = p)).isNone) &&
      legalTS (specPut m p d) ops
  | m, .get p :: ops => legalTS (specGet m p).2 ops

/- The live (pending) slots of the queue, in slot order. -/

def live (q : TQ) : List QSVTimeStamp :=
  q.timestamps.filter (fun t => ¬ t.pts = AV_NOPTS_VALUE)

def pair (e : Int × Int) : QSVTimeStamp := ⟨e.1, e.2⟩

/- The simulation invariant tying the code-level queue of a session that
   has not yet decoded a frame to the spec-level pending list. -/

def InvTS (q : TQ) (m : List (Int × Int)) : Prop :=
  q.decoded_cnt = 0 ∧
  1 ≤ q.timestamps.length ∧
  q.put_dts_cnt ≤ q.timestamps.length ∧
  (∀ t ∈ q.timestamps.drop q.put_dts_cnt, t.pts = AV_NOPTS_VALUE) ∧
  live q = m.map pair ∧
  (m.map Prod.fst).Nodup ∧
  (∀ e ∈ m, e.1 ≠ AV_NOPTS_VALUE)

/-
The surface pool (QSVSurfaceList, qsv.c lines 198-265).  A surface wraps
one frame buffer (memId names it) plus the locked flag owned by the
engine.  alloc_surface_list_entry returns a zeroed entry (locked is
false) backed by a freshly acquired frame, or fails when allocation
fails.
-/

structure Surface where
  locked : Bool
  memId : Nat
  deriving DecidableEq, Repr

/- alloc_surface_list_entry, qsv.c lines 211-243 (av_mallocz zeroes the
   entry, so its locked flag starts false; frameId names the buffer
   acquired from the external allocator). -/

def alloc_surface_list_entry (allocOk : Bool) (frameId : Nat) :
    Option Surface :=
  if allocOk then some { locked := false, memId := frameId } else none

/- get_surface, qsv.c lines 245-265: walk the list and return the first
   surface whose locked flag is clear; when every entry is locked,
   allocate a fresh entry, append it at the tail, and return it. -/

def get_surface (allocOk : Bool) (frameId : Nat) :
    List Surface → Option (Surface × List Surface)
  | [] =>
    match alloc_surface_list_entry allocOk frameId with
    | some s => some (s, [s])
    | none => none
  | s :: rest =>
    if !s.locked then some (s, s :: rest)
    else
      match get_surface allocOk frameId rest with
      | some (r, rest2) => some (r, s :: rest2)
      | none => none

/-
The decode session (QSVContext from qsv.h as used by qsv.c, plus
ff_qsv_decode / ff_qsv_init / ff_qsv_reinit).  The tq field groups the C
fields timestamps / nb_timestamps / put_dts_cnt / decoded_cnt (the
capacity is the list length).  The external engine is an oracle: each
MFXVideoDECODE_DecodeFrameAsync call consumes one EngineResp giving the
status, the bytes consumed from the bitstream, whether the sync point was
set, and the output surface's timestamp and picture-structure flags.
Engine-side lock mutation of surfaces is part of the oracle's world and
not observed by any claim, so the pool changes only by appends here.
-/

structure AVPacket where
  pts : Int
  dts : Int
  data : List Nat
  deriving DecidableEq, Repr

structure FrameInfo where
  CropW : Nat
  CropH : Nat
  Width : Nat
  Height : Nat
  FrameRateExtN : Nat
  FrameRateExtD : Nat
  deriving DecidableEq, Repr

structure AVCodecContext where
  codec_id : CodecID
  width : Nat
  height : Nat
  coded_width : Nat
  coded_height : Nat
  time_base_num : Int
  time_base_den : Int
  ticks_per_frame : Int
  deriving DecidableEq, Repr

structure QSVContext where
  bs : MfxBitstream
  tq : TQ
  last_ret : Int
  need_reinit : Bool
  pending : List AVPacket
  surflist : List Surface
  timeout : Nat
  codecId : Int
  frameInfo : FrameInfo
  deriving DecidableEq, Repr

/- Picture structure flags from mfx/mfxstructures.h. -/

def MFX_PICSTRUCT_PROGRESSIVE : Nat := 1

def MFX_PICSTRUCT_FIELD_TFF : Nat := 2

def MFX_PICSTRUCT_FIELD_REPEATED : Nat := 16

def MFX_PICSTRUCT_FRAME_DOUBLING : Nat := 32

def MFX_PICSTRUCT_FRAME_TRIPLING : Nat := 64

structure EngineResp where
  status : Int
  consume : Nat
  syncSet : Bool
  outTimeStamp : Int
  outPicStruct : Nat
  deriving DecidableEq, Repr

/- Local state of one ff_qsv_decode call while the submit loop runs:
   the session, the local bs pointer nullness, the busy counter, and the
   last values of the sync / outsurf out-parameters. -/

structure LoopSt where
  q : QSVContext
  bsNull : Bool
  busymsec : Nat
  sync : Bool
  outTS : Int
  outPS : Nat
  deriving DecidableEq, Repr

inductive LoopRes where
  | earlyRet (v : Int) (st : LoopSt)
  | brk (r : Int) (st : LoopSt)
  | noFuel (st : LoopSt)
  deriving DecidableEq, Repr

/- The do-while condition of qsv.c lines 409-411. -/

def retryStatus (ret : Int) : Bool :=
  decide (ret = MFX_ERR_MORE_SURFACE) || decide (ret = MFX_ERR_MORE_DATA) ||
  decide (ret = MFX_WRN_DEVICE_BUSY) ||
  decide (ret = MFX_WRN_VIDEO_PARAM_CHANGED) ||
  decide (ret = MFX_ERR_INCOMPATIBLE_VIDEO_PARAM)

/- The submit/decode loop of ff_qsv_decode, qsv.c lines 353-411.  Each
   non-breaking iteration performs exactly one engine call, so the oracle
   list is the recursion fuel; allocation inside the loop (put_dts growth,
   bitstream growth, frame buffers for new surfaces) is modelled as
   succeeding.  size is the byte count of the caller's packet. -/

def decodeLoop (surfAllocOk : Bool) (size : Nat) :
    List EngineResp → Int → LoopSt → LoopRes
  | engine, ret0, st0 =>
    let step :=
      if ret0 = MFX_ERR_MORE_DATA then
        if st0.bsNull then Sum.inl (LoopRes.brk ret0 st0)
        else
          match st0.q.pending with
          | pkt :: rest =>
            let q1 := { st0.q with pending := rest }
            let tq1 := (put_dts true q1.tq pkt.pts pkt.dts).2
            let bs1 := { q1.bs with TimeStamp := pkt.pts }
            let r := bitstream_enqueue true bs1 pkt.data
            if r.1 < 0 then
              Sum.inl (.earlyRet r.1 { st0 with q := { q1 with tq := tq1, bs := r.2 } })
            else
              Sum.inr (r.1, { st0 with q := { q1 with tq := tq1, bs := r.2 } })
          | [] =>
            if size = 0 then Sum.inr (ret0, { st0 with bsNull := true })
            else Sum.inl (.brk ret0 st0)
      else if ret0 = MFX_WRN_VIDEO_PARAM_CHANGED then Sum.inr (ret0, st0)
      else if ret0 = MFX_ERR_INCOMPATIBLE_VIDEO_PARAM then
        if ¬ st0.bsNull then
          Sum.inr (ret0,
            { st0 with
              bsNull := true,
              q := { st0.q with need_reinit := true } })
        else Sum.inl (.earlyRet AVERROR_BUG st0)
      else Sum.inr (ret0, st0)
    match step with
    | Sum.inl out => out
    | Sum.inr (ret1, st1) =>
      match get_surface surfAllocOk st1.q.surflist.length st1.q.surflist with
      | none => .brk ret1 st1
      | some (_, pool2) =>
        match engine with
        | [] => .noFuel { st1 with q := { st1.q with surflist := pool2 } }
        | resp :: engineRest =>
          let q2 := { st1.q with
                      surflist := pool2,
                      bs := if st1.bsNull then st1.q.bs
                            else bsConsume st1.q.bs resp.consume }
          let st2 := { st1 with
                       q := q2, sync := resp.syncSet,
                       outTS := resp.outTimeStamp, outPS := resp.outPicStruct }
          let ret2 := resp.status
          if ret2 = MFX_WRN_DEVICE_BUSY then
            if st2.q.timeout < st2.busymsec then .earlyRet (AVERROR EIO) st2
            else
              let st3 := { st2 with busymsec := st2.busymsec + 1 }
              if retryStatus ret2 then decodeLoop surfAllocOk size engineRest ret2 st3
              else .brk ret2 st3
          else
            let st3 := { st2 with busymsec := 0 }
            if retryStatus ret2 then decodeLoop surfAllocOk size engineRest ret2 st3
            else .brk ret2 st3

/- Observable outcome of one ff_qsv_decode call: return value, the
   got_frame flag, the produced frame's fields, and the session after the
   call.  Frame fields are 0/false when no frame was produced. -/

structure DecodeOut where
  retval : Int
  got_frame : Bool
  framePts : Int
  frameDts : Int
  frameRepeatPict : Nat
  frameTFF : Bool
  frameInterlaced : Bool
  q : QSVContext
  deriving DecidableEq, Repr

/- ff_qsv_decode, qsv.c lines 331-456.  getBufferOk models the
   ff_get_buffer call that re-provisions the output surface after the
   frame is moved out (its failure code is modelled as AVERROR(ENOMEM)).
   none is returned only when the engine oracle runs out. -/

def ff_qsv_decode (surfAllocOk getBufferOk : Bool) (engine : List EngineResp)
    (q0 : QSVContext) (avpkt : AVPacket) : Option DecodeOut :=
  let size := avpkt.data.length
  let q1 := if size ≠ 0 then { q0 with pending := q0.pending ++ [avpkt] } else q0
  let st0 : LoopSt := { q := q1, bsNull := q1.need_reinit, busymsec := 0,
                        sync := false, outTS := 0, outPS := 0 }
  match decodeLoop surfAllocOk size engine q1.last_ret st0 with
  | .noFuel _ => none
  | .earlyRet v st =>
    some { retval := v, got_frame := false, framePts := 0, frameDts := 0,
           frameRepeatPict := 0, frameTFF := false, frameInterlaced := false,
           q := st.q }
  | .brk r st =>
    let q2 := { st.q with last_ret := r }
    let ret1 : Int := if r = MFX_ERR_MORE_DATA then 0 else r
    if st.sync then
      let g := get_dts q2.tq st.outTS
      if g.1 < 0 then
        some { retval := g.1, got_frame := false, framePts := 0, frameDts := 0,
               frameRepeatPict := 0, frameTFF := false, frameInterlaced := false,
               q := { q2 with tq := g.2.2 } }
      else if ¬ getBufferOk then
        some { retval := AVERROR ENOMEM, got_frame := false, framePts := 0,
               frameDts := 0, frameRepeatPict := 0, frameTFF := false,
               frameInterlaced := false, q := { q2 with tq := g.2.2 } }
      else
        let q3 := { q2 with tq := { g.2.2 with decoded_cnt := g.2.2.decoded_cnt + 1 } }
        some { retval := (size : Int), got_frame := true,
               framePts := st.outTS, frameDts := g.2.1.getD 0,
               frameRepeatPict :=
                 if Nat.land st.outPS MFX_PICSTRUCT_FRAME_TRIPLING ≠ 0 then 4
                 else if Nat.land st.outPS MFX_PICSTRUCT_FRAME_DOUBLING ≠ 0 then 2
                 else if Nat.land st.outPS MFX_PICSTRUCT_FIELD_REPEATED ≠ 0 then 1
                 else 0,
               frameTFF := Nat.land st.outPS MFX_PICSTRUCT_FIELD_TFF ≠ 0,
               frameInterlaced := Nat.land st.outPS MFX_PICSTRUCT_PROGRESSIVE = 0,
               q := q3 }
    else
      if ret1 < 0 then
        some { retval := ff_qsv_error ret1, got_frame := false, framePts := 0,
               frameDts := 0, frameRepeatPict := 0, frameTFF := false,
               frameInterlaced := false, q := q2 }
      else
        some { retval := (size : Int), got_frame := false, framePts := 0,
               frameDts := 0, frameRepeatPict := 0, frameTFF := false,
               frameInterlaced := false, q := q2 }

/- Modelled from the spec: ASYNC_DEPTH_DEFAULT lives in qsv.h, which is
   not among the sources; the spec's section 8 scenario (async depth 4,
   suggested surfaces 8, timestamp capacity 12) fixes its value. -/

def ASYNC_DEPTH_DEFAULT : Nat := 4

/- The engine calls ff_qsv_init / ff_qsv_reinit can issue, recorded as a
   trace so that claims can state that no engine call happened. -/

inductive EngineCall where
  | mfxInit
  | queryIMPL
  | decodeHeader
  | queryIOSurf
  | decoderInit
  | closeSession
  deriving DecidableEq, Repr

/- Results the external engine binding returns during init. -/

structure InitEnv where
  mfxInitRet : Int
  headerRet : Int
  headerInfo : FrameInfo
  queryRet : Int
  numFrameSuggested : Nat
  timestampsAllocOk : Bool
  decodeInitRet : Int
  deriving DecidableEq, Repr

/- ff_qsv_init, qsv.c lines 93-157.  The codec check runs before any
   engine call or field update; MFXQueryIMPL only feeds logging.  On the
   av_mallocz_array failure path the C keeps the stale nb_timestamps
   count next to a NULL array; the model's timestamp list is empty there
   (no claim observes that corner).  MFXVideoDECODE_Init's status is
   translated whenever it is nonzero, warnings included. -/

def ff_qsv_init (env : InitEnv) (c : AVCodecContext) (q : QSVContext) :
    Int × AVCodecContext × QSVContext × List EngineCall :=
  let r0 := codec_id_to_mfx c.codec_id
  if r0 < 0 then (r0, c, q, [])
  else
    let q := { q with codecId := r0 }
    if env.mfxInitRet < 0 then (ff_qsv_error env.mfxInitRet, c, q, [.mfxInit])
    else if env.headerRet < 0 then
      (ff_qsv_error env.headerRet, c, q, [.mfxInit, .queryIMPL, .decodeHeader])
    else
      let c := { c with
                 width := env.headerInfo.CropW,
                 height := env.headerInfo.CropH,
                 coded_width := env.headerInfo.Width,
                 coded_height := env.headerInfo.Height,
                 time_base_den := (env.headerInfo.FrameRateExtN : Int),
                 time_base_num :=
                   (env.headerInfo.FrameRateExtD : Int) / c.ticks_per_frame }
      let q := { q with frameInfo := env.headerInfo }
      let q := if ¬ q.need_reinit then
          { q with bs := { q.bs with DataLength := 0, DataOffset := 0 } }
        else q
      if env.queryRet < 0 then
        (ff_qsv_error env.queryRet, c, q,
         [.mfxInit, .queryIMPL, .decodeHeader, .queryIOSurf])
      else
        let nb := env.numFrameSuggested + ASYNC_DEPTH_DEFAULT
        let q := { q with last_ret := MFX_ERR_MORE_DATA }
        if ¬ env.timestampsAllocOk then
          (AVERROR ENOMEM, c,
           { q with tq := { timestamps := [], put_dts_cnt := 0, decoded_cnt := 0 } },
           [.mfxInit, .queryIMPL, .decodeHeader, .queryIOSurf])
        else
          let q := { q with
                     tq := reset_timestamps
                       { timestamps := List.replicate nb ⟨0, 0⟩,
                         put_dts_cnt := 0, decoded_cnt := 0 } }
          (ff_qsv_error env.decodeInitRet, c, q,
           [.mfxInit, .queryIMPL, .decodeHeader, .queryIOSurf, .decoderInit])

/- ff_qsv_reinit, qsv.c lines 489-504: close the session, release the
   surface pool, free the timestamp array, re-run init, clear the
   need_reinit flag. -/

def ff_qsv_reinit (env : InitEnv) (c : AVCodecContext) (q : QSVContext) :
    Int × AVCodecContext × QSVContext × List EngineCall :=
  let q1 := { q with
              surflist := [],
              tq := { timestamps := [], put_dts_cnt := q.tq.put_dts_cnt,
                      decoded_cnt := q.tq.decoded_cnt } }
  let r := ff_qsv_init env c q1
  (r.1, r.2.1, { r.2.2.1 with need_reinit := false }, .closeSession :: r.2.2.2)

/-
Helper lemmas about the byte-region arithmetic, shared by the bitstream
claims.
-/

theorem vis_ext {l z : List Nat} {off len : Nat} (h : off + len ≤ l.length) :
    ((l ++ z).drop off).take len = (l.drop off).take len := by
  rw [List.drop_append_eq_append_drop, List.take_append_eq_append_take]
  have h1 : off - l.length = 0 := by omega
  have h2 : len - (l.drop off).length = 0 := by
    simp only [List.length_drop]
    omega
  rw [h1, h2]
  simp

/- Sample buffer states used by concrete witnesses. -/

def bsSample : MfxBitstream :=
  { Data := some [1, 2, 3, 4], DataOffset := 1, DataLength := 2,
    MaxLength := 4, TimeStamp := 0 }

def bsEmpty : MfxBitstream :=
  { Data := none, DataOffset := 0, DataLength := 0, MaxLength := 0,
    TimeStamp := 0 }

/-- C9: the error translator is a pure total function on engine status
codes and realizes exactly the specification's table: out-of-memory and
insufficient-buffer map to ResourceExhausted; invalid-handle,
invalid-parameter and incompatible-parameter map to InvalidArgument;
device-failed, device-lost and lock-failed map to IOFailure;
null-pointer, undefined-behavior and not-initialized map to InternalBug;
unsupported and not-found map to Unsupported; more-data, more-surface
and more-bitstream map to WouldBlock; success maps to no error; every
other status maps to Unknown. -/
theorem C9_error_translation (s : Int) :
    errKind (ff_qsv_error s) = specTranslate s := by
  by_cases h1 : s = MFX_ERR_NONE
  · subst h1; decide
  by_cases h2 : s = MFX_ERR_MEMORY_ALLOC
  · subst h2; decide
  by_cases h3 : s = MFX_ERR_NOT_ENOUGH_BUFFER
  · subst h3; decide
  by_cases h4 : s = MFX_ERR_INVALID_HANDLE
  · subst h4; decide
  by_cases h5 : s = MFX_ERR_DEVICE_FAILED
  · subst h5; decide
  by_cases h6 : s = MFX_ERR_DEVICE_LOST
  · subst h6; decide
  by_cases h7 : s = MFX_ERR_LOCK_MEMORY
  · subst h7; decide
  by_cases h8 : s = MFX_ERR_NULL_PTR
  · subst h8; decide
  by_cases h9 : s = MFX_ERR_UNDEFINED_BEHAVIOR
  · subst h9; decide
  by_cases h10 : s = MFX_ERR_NOT_INITIALIZED_QSV
  · subst h10; decide
  by_cases h11 : s = MFX_ERR_UNSUPPORTED
  · subst h11; decide
  by_cases h12 : s = MFX_ERR_NOT_FOUND
  · subst h12; decide
  by_cases h13 : s = MFX_ERR_MORE_DATA
  · subst h13; decide
  by_cases h14 : s = MFX_ERR_MORE_SURFACE
  · subst h14; decide
  by_cases h15 : s = MFX_ERR_MORE_BITSTREAM
  · subst h15; decide
  by_cases h16 : s = MFX_ERR_INCOMPATIBLE_VIDEO_PARAM
  · subst h16; decide
  by_cases h17 : s = MFX_ERR_INVALID_VIDEO_PARAM
  · subst h17; decide
  · unfold ff_qsv_error specTranslate
    simp only [h1, h2, h3, h4, h5, h6, h7, h8, h9, h10, h11, h12, h13, h14,
               h15, h16, h17, if_false, or_self, false_or, or_false,
               if_true, ite_false]
    decide

/-- C10: for every codec id other than H.264, MPEG-1 video, MPEG-2 video
and VC-1, ff_qsv_init fails with the Unsupported error before any
engine call, allocation or field update, leaving the codec context and
the session exactly as they were. -/
theorem C10_unsupported_codec (tag : Nat) (env : InitEnv)
    (c : AVCodecContext) (q : QSVContext) :
    ff_qsv_init env { c with codec_id := .other tag } q =
      (AVERROR ENOSYS, { c with codec_id := .other tag }, q, []) ∧
    errKind (AVERROR ENOSYS) = GenericError.unsupported := by
  constructor
  · unfold ff_qsv_init
    simp only [codec_id_to_mfx]
    rw [if_pos]
    decide
  · decide

/-- C5: bitstream_realloc (ensureCapacity) is a no-op when the capacity
already covers the request; otherwise it grows the capacity to at least
the request preserving all existing bytes and the valid region; on
allocation failure it returns the ResourceExhausted code and discards
the buffer contents (the backing region is freed). -/
theorem C5_ensureCapacity_contract (ok : Bool) (bs : MfxBitstream) (n : Nat) :
    (n ≤ bs.MaxLength → bitstream_realloc ok bs n = (0, bs)) ∧
    (bs.MaxLength < n →
      bitstream_realloc false bs n = (AVERROR ENOMEM, { bs with Data := none }) ∧
      (bitstream_realloc true bs n).1 = 0 ∧
      n ≤ (bitstream_realloc true bs n).2.MaxLength ∧
      bsBytes (bitstream_realloc true bs n).2 =
        bsBytes bs ++ List.replicate (n - (bsBytes bs).length) 0 ∧
      (bitstream_realloc true bs n).2.DataOffset = bs.DataOffset ∧
      (bitstream_realloc true bs n).2.DataLength = bs.DataLength ∧
      (bsWF bs → bsVisible (bitstream_realloc true bs n).2 = bsVisible bs)) := by
  constructor
  · intro h
    unfold bitstream_realloc
    rw [if_pos h]
  · intro h
    have hn : ¬ n ≤ bs.MaxLength := by omega
    have e1 : bitstream_realloc true bs n =
        (0, { bs with
              Data := some (bsBytes bs ++ List.replicate (n - (bsBytes bs).length) 0),
              MaxLength := n }) := by
      unfold bitstream_realloc
      rw [if_neg hn]
      rfl
    have e2 : bitstream_realloc false bs n =
        (AVERROR ENOMEM, { bs with Data := none }) := by
      unfold bitstream_realloc
      rw [if_neg hn]
      rfl
    refine ⟨e2, ?_, ?_, ?_, ?_, ?_, ?_⟩
    · rw [e1]
    · rw [e1]
    · rw [e1]
      rfl
    · rw [e1]
    · rw [e1]
    · rw [e1]
      intro hWF
      obtain ⟨h1, h2⟩ := hWF
      unfold bsVisible
      show (((bsBytes bs ++ List.replicate (n - (bsBytes bs).length) 0).drop
               bs.DataOffset).take bs.DataLength) = _
      exact vis_ext (by omega)

/-- C5 witness: at a concrete buffer of capacity 4, requesting 3 is a
no-op, failed growth to 9 discards the contents, and successful growth
to 9 preserves the visible bytes. -/
theorem C5_witness :
    (3 : Nat) ≤ bsSample.MaxLength ∧
    bitstream_realloc true bsSample 3 = (0, bsSample) ∧
    bsSample.MaxLength < (9 : Nat) ∧
    bitstream_realloc false bsSample 9 =
      (AVERROR ENOMEM, { bsSample with Data := none }) ∧
    bsWF bsSample ∧
    bsVisible (bitstream_realloc true bsSample 9).2 = bsVisible bsSample :=
  ⟨by decide,
   (C5_ensureCapacity_contract true bsSample 3).1 (by decide),
   by decide,
   ((C5_ensureCapacity_contract false bsSample 9).2 (by decide)).1,
   ⟨by decide, by decide⟩,
   (((C5_ensureCapacity_contract true bsSample 9).2 (by decide)).2.2.2.2.2.2)
     ⟨by decide, by decide⟩⟩

/- Sample timestamp queues used by concrete witnesses. -/

def tqA : TQ :=
  { timestamps := [⟨1, 1⟩, ⟨2, 2⟩], put_dts_cnt := 2, decoded_cnt := 0 }

def tqB : TQ :=
  { timestamps := [⟨1, 1⟩, ⟨2, 2⟩], put_dts_cnt := 2, decoded_cnt := 1 }

/-- C2: on a put with zero decoded frames and submission count equal to
the capacity, the capacity exactly doubles; on a put with exactly one
decoded frame and capacity below submission count + 32, the capacity
grows to submission count + 32; both growths keep every existing entry,
fill the new slots with the sentinel pair, and the new pair lands at
slot (submission count mod new capacity). -/
theorem C2_growth_triggers (q : TQ) (p d : Int) :
    (q.decoded_cnt = 0 → q.timestamps.length = q.put_dts_cnt →
     1 ≤ q.timestamps.length →
      (put_dts true q p d).1 = 0 ∧
      (put_dts true q p d).2.timestamps.length = 2 * q.timestamps.length ∧
      (put_dts true q p d).2.timestamps =
        (q.timestamps ++ List.replicate q.timestamps.length noPair).set
          (q.put_dts_cnt % (2 * q.timestamps.length)) ⟨p, d⟩ ∧
      (put_dts true q p d).2.put_dts_cnt = q.put_dts_cnt + 1) ∧
    (q.decoded_cnt = 1 → q.timestamps.length < q.put_dts_cnt + 32 →
      (put_dts true q p d).1 = 0 ∧
      (put_dts true q p d).2.timestamps.length = q.put_dts_cnt + 32 ∧
      (put_dts true q p d).2.timestamps =
        (q.timestamps ++
          List.replicate (q.put_dts_cnt + 32 - q.timestamps.length) noPair).set
          (q.put_dts_cnt % (q.put_dts_cnt + 32)) ⟨p, d⟩ ∧
      (put_dts true q p d).2.put_dts_cnt = q.put_dts_cnt + 1) := by
  constructor
  · intro h0 hfull h1
    have hre : realloc_timestamps q.timestamps (q.timestamps.length * 2)
        = q.timestamps ++ List.replicate q.timestamps.length noPair := by
      unfold realloc_timestamps
      rw [List.take_of_length_le (by omega)]
      have hc : q.timestamps.length * 2 - q.timestamps.length
          = q.timestamps.length := by omega
      rw [hc]
    have hQ : put_dts true q p d =
        (0, tq_insert
              { q with timestamps :=
                  q.timestamps ++ List.replicate q.timestamps.length noPair }
              p d) := by
      unfold put_dts
      rw [if_pos ⟨h0, hfull⟩, if_pos rfl, hre]
    have hL : (q.timestamps ++ List.replicate q.timestamps.length noPair).length
        = 2 * q.timestamps.length := by
      simp
      omega
    refine ⟨by rw [hQ], ?_, ?_, by rw [hQ]; rfl⟩
    · rw [hQ]
      show ((q.timestamps ++ List.replicate q.timestamps.length noPair).set
              _ _).length = _
      rw [List.length_set, hL]
    · rw [hQ]
      show (q.timestamps ++ List.replicate q.timestamps.length noPair).set
             (q.put_dts_cnt %
               (q.timestamps ++ List.replicate q.timestamps.length noPair).length)
             ⟨p, d⟩ = _
      rw [hL]
  · intro h0 hlt
    have hno : ¬ (q.decoded_cnt = 0 ∧ q.timestamps.length = q.put_dts_cnt) := by
      rintro ⟨ha, _⟩
      rw [h0] at ha
      exact one_ne_zero ha
    have hre : realloc_timestamps q.timestamps (q.put_dts_cnt + 32)
        = q.timestamps ++
            List.replicate (q.put_dts_cnt + 32 - q.timestamps.length) noPair := by
      unfold realloc_timestamps
      rw [List.take_of_length_le (by omega)]
    have hQ : put_dts true q p d =
        (0, tq_insert
              { q with timestamps := (q.timestamps ++ List.replicate (q.put_dts_cnt + 32 - q.timestamps.length) noPair) }
              p d) := by
      unfold put_dts
      rw [if_neg hno, if_pos ⟨h0, hlt⟩, if_pos rfl, hre]
    have hL : (q.timestamps ++
        List.replicate (q.put_dts_cnt + 32 - q.timestamps.length) noPair).length
        = q.put_dts_cnt + 32 := by
      simp
      omega
    refine ⟨by rw [hQ], ?_, ?_, by rw [hQ]; rfl⟩
    · rw [hQ]
      show ((q.timestamps ++
              List.replicate (q.put_dts_cnt + 32 - q.timestamps.length)
                noPair).set _ _).length = _
      rw [List.length_set, hL]
    · rw [hQ]
      show (q.timestamps ++
              List.replicate (q.put_dts_cnt + 32 - q.timestamps.length)
                noPair).set
             (q.put_dts_cnt %
               (q.timestamps ++
                 List.replicate (q.put_dts_cnt + 32 - q.timestamps.length)
                   noPair).length)
             ⟨p, d⟩ = _
      rw [hL]

/-- C2 witness: a full 2-slot queue with zero decoded frames doubles on
the next put; the same queue with one decoded frame grows to
submission count + 32. -/
theorem C2_witness :
    ((put_dts true tqA 9 9).1 = 0 ∧
     (put_dts true tqA 9 9).2.timestamps.length = 2 * tqA.timestamps.length ∧
     (put_dts true tqA 9 9).2.timestamps =
       (tqA.timestamps ++ List.replicate tqA.timestamps.length noPair).set
         (tqA.put_dts_cnt % (2 * tqA.timestamps.length)) ⟨9, 9⟩ ∧
     (put_dts true tqA 9 9).2.put_dts_cnt = tqA.put_dts_cnt + 1) ∧
    ((put_dts true tqB 9 9).1 = 0 ∧
     (put_dts true tqB 9 9).2.timestamps.length = tqB.put_dts_cnt + 32 ∧
     (put_dts true tqB 9 9).2.timestamps =
       (tqB.timestamps ++
         List.replicate (tqB.put_dts_cnt + 32 - tqB.timestamps.length)
           noPair).set
         (tqB.put_dts_cnt % (tqB.put_dts_cnt + 32)) ⟨9, 9⟩ ∧
     (put_dts true tqB 9 9).2.put_dts_cnt = tqB.put_dts_cnt + 1) :=
  ⟨(C2_growth_triggers tqA 9 9).1 rfl rfl (by decide),
   (C2_growth_triggers tqB 9 9).2 rfl (by decide)⟩

/- Helper lemmas for the surface pool scan. -/

theorem get_surface_locked_false (ok : Bool) (fid : Nat) :
    ∀ (pool : List Surface) (s : Surface) (pool2 : List Surface),
      get_surface ok fid pool = some (s, pool2) → s.locked = false := by
  intro pool
  induction pool with
  | nil =>
    intro s pool2 h
    cases ok with
    | true =>
      simp [get_surface, alloc_surface_list_entry] at h
      rw [← h.1]
    | false =>
      simp [get_surface, alloc_surface_list_entry] at h
  | cons head rest ih =>
    intro s pool2 h
    cases hlv : head.locked with
    | false =>
      simp [get_surface, hlv] at h
      rw [← h.1]
      exact hlv
    | true =>
      rw [get_surface, hlv] at h
      simp only [Bool.not_true, Bool.false_eq_true, if_false] at h
      cases hrec : get_surface ok fid rest with
      | none => rw [hrec] at h; exact absurd h (by simp)
      | some pr =>
        rw [hrec] at h
        obtain ⟨r, rest2⟩ := pr
        simp at h
        rw [← h.1]
        exact ih r rest2 hrec

theorem get_surface_first_unlocked (ok : Bool) (fid : Nat) :
    ∀ (pool : List Surface) (s : Surface),
      pool.find? (fun t => !t.locked) = some s →
      get_surface ok fid pool = some (s, pool) := by
  intro pool
  induction pool with
  | nil => intro s h; simp at h
  | cons head rest ih =>
    intro s h
    cases hlv : head.locked with
    | false =>
      simp only [List.find?_cons, hlv, Bool.not_false, Option.some_inj] at h
      rw [get_surface, hlv]
      simp [h]
    | true =>
      simp only [List.find?_cons, hlv, Bool.not_true] at h
      rw [get_surface, hlv]
      simp only [Bool.not_true, Bool.false_eq_true, if_false]
      rw [ih s h]

theorem get_surface_all_locked (fid : Nat) :
    ∀ (pool : List Surface), (∀ s ∈ pool, s.locked = true) →
      get_surface true fid pool =
        some ({ locked := false, memId := fid },
              pool ++ [{ locked := false, memId := fid }]) ∧
      get_surface false fid pool = none := by
  intro pool
  induction pool with
  | nil => intro _; constructor <;> simp [get_surface, alloc_surface_list_entry]
  | cons head rest ih =>
    intro hall
    have hl : head.locked = true := hall head (by simp)
    have hrest := ih (fun s hs => hall s (by simp [hs]))
    constructor
    · rw [get_surface, hl]
      simp only [Bool.not_true, Bool.false_eq_true, if_false]
      rw [hrest.1]
      simp
    · rw [get_surface, hl]
      simp only [Bool.not_true, Bool.false_eq_true, if_false]
      rw [hrest.2]

/-- C7: acquire never returns a locked surface; it returns the first
entry in list order whose locked flag is false (leaving the pool
unchanged); when every entry is locked it allocates a fresh unlocked
entry backed by a new buffer, appends it to the pool and returns it,
and reports no surface when that allocation fails. -/
theorem C7_surface_acquire (ok : Bool) (fid : Nat) (pool : List Surface) :
    (∀ (s : Surface) (pool2 : List Surface),
       get_surface ok fid pool = some (s, pool2) → s.locked = false) ∧
    (∀ s : Surface, pool.find? (fun t => !t.locked) = some s →
       get_surface ok fid pool = some (s, pool)) ∧
    ((∀ s ∈ pool, s.locked = true) →
       get_surface true fid pool =
         some ({ locked := false, memId := fid },
               pool ++ [{ locked := false, memId := fid }]) ∧
       get_surface false fid pool = none) :=
  ⟨get_surface_locked_false ok fid pool,
   fun s h => get_surface_first_unlocked ok fid pool s h,
   fun h => get_surface_all_locked fid pool h⟩

/-- C7 witness: on a pool whose first free entry is its second surface,
acquire returns that entry and leaves the pool alone; on a fully locked
pool it appends a fresh surface. -/
theorem C7_witness :
    ([⟨true, 0⟩, ⟨false, 1⟩, ⟨false, 2⟩] : List Surface).find?
        (fun t => !t.locked) = some ⟨false, 1⟩ ∧
    get_surface true 7 [⟨true, 0⟩, ⟨false, 1⟩, ⟨false, 2⟩] =
      some (⟨false, 1⟩, [⟨true, 0⟩, ⟨false, 1⟩, ⟨false, 2⟩]) ∧
    (∀ s ∈ ([⟨true, 5⟩] : List Surface), s.locked = true) ∧
    get_surface true 7 [⟨true, 5⟩] = some (⟨false, 7⟩, [⟨true, 5⟩, ⟨false, 7⟩]) :=
  ⟨by decide,
   (C7_surface_acquire true 7 [⟨true, 0⟩, ⟨false, 1⟩, ⟨false, 2⟩]).2.1
     ⟨false, 1⟩ (by decide),
   by decide,
   ((C7_surface_acquire true 7 [⟨true, 5⟩]).2.2 (by decide)).1⟩

/- Byte-level lemmas for the enqueue path. -/

theorem writeBytes_length {l d : List Nat} {pos : Nat}
    (h : pos + d.length ≤ l.length) :
    (writeBytes l pos d).length = l.length := by
  unfold writeBytes
  simp only [List.length_append, List.length_take, List.length_drop]
  omega

theorem writeBytes_visible {l d : List Nat} {off len : Nat}
    (h : off + len + d.length ≤ l.length) :
    ((writeBytes l (off + len) d).drop off).take (len + d.length)
      = ((l.drop off).take len) ++ d := by
  unfold writeBytes
  rw [List.drop_append_eq_append_drop]
  rw [List.drop_append_eq_append_drop]
  rw [List.length_append, List.length_take]
  have h0 : off - (min (off + len) l.length + d.length) = 0 := by omega
  have h1 : off - min (off + len) l.length = 0 := by omega
  rw [h0, h1, List.drop_zero, List.drop_zero]
  rw [List.drop_take]
  have h2 : off + len - off = len := by omega
  rw [h2]
  rw [List.take_append_eq_append_take]
  have h3 : (List.take len (List.drop off l) ++ d).length = len + d.length := by
    simp only [List.length_append, List.length_take, List.length_drop]
    omega
  rw [h3]
  have h4 : len + d.length - (len + d.length) = 0 := by omega
  rw [h4]
  rw [List.take_of_length_le (le_of_eq h3)]
  simp

/- bitstream_enqueue on a buffer whose capacity already covers the
   required size: appends the payload to the visible region, compacting
   exactly when the tail would not fit. -/

theorem enqueue_no_growth_spec (bs : MfxBitstream) (d : List Nat)
    (h : bsWF bs) (hg : bs.DataLength + d.length ≤ bs.MaxLength) :
    (bitstream_enqueue true bs d).1 = 0 ∧
    bsWF (bitstream_enqueue true bs d).2 ∧
    bsVisible (bitstream_enqueue true bs d).2 = bsVisible bs ++ d ∧
    (bitstream_enqueue true bs d).2.DataLength = bs.DataLength + d.length ∧
    (bitstream_enqueue true bs d).2.MaxLength = bs.MaxLength ∧
    (bitstream_enqueue true bs d).2.DataOffset =
      (if bs.MaxLength - bs.DataOffset < bs.DataLength + d.length then 0
       else bs.DataOffset) := by
  obtain ⟨hlen, hle⟩ := h
  have hre : bitstream_realloc true bs (bs.DataLength + d.length) = (0, bs) := by
    unfold bitstream_realloc
    rw [if_pos hg]
  by_cases hc : bs.MaxLength - bs.DataOffset < bs.DataLength + d.length
  · -- compaction branch
    have e : bitstream_enqueue true bs d =
        (0, { bs with
              Data := some (writeBytes
                (((bsBytes bs).drop bs.DataOffset).take bs.DataLength ++
                  (bsBytes bs).drop bs.DataLength)
                (0 + bs.DataLength) d),
              DataOffset := 0,
              DataLength := bs.DataLength + d.length }) := by
      simp only [bitstream_enqueue, hre]
      norm_num
      rw [if_pos hc]
      simp [bsBytes]
    have hClen : (((bsBytes bs).drop bs.DataOffset).take bs.DataLength ++
        (bsBytes bs).drop bs.DataLength).length = bs.MaxLength := by
      simp only [List.length_append, List.length_take, List.length_drop]
      omega
    have hwb : 0 + bs.DataLength + d.length ≤
        (((bsBytes bs).drop bs.DataOffset).take bs.DataLength ++
          (bsBytes bs).drop bs.DataLength).length := by
      rw [hClen]
      omega
    have hCvis : ((((bsBytes bs).drop bs.DataOffset).take bs.DataLength ++
        (bsBytes bs).drop bs.DataLength).drop 0).take bs.DataLength
          = bsVisible bs := by
      rw [List.drop_zero, List.take_append_eq_append_take]
      have h2 : (((bsBytes bs).drop bs.DataOffset).take bs.DataLength).length
          = bs.DataLength := by
        simp only [List.length_take, List.length_drop]
        omega
      rw [h2, Nat.sub_self, List.take_zero, List.append_nil,
          List.take_of_length_le (le_of_eq h2)]
      rfl
    rw [e]
    refine ⟨rfl, ⟨?_, ?_⟩, ?_, rfl, rfl, ?_⟩
    · show (writeBytes _ _ _).length = bs.MaxLength
      rw [writeBytes_length hwb, hClen]
    · show 0 + (bs.DataLength + d.length) ≤ bs.MaxLength
      omega
    · show ((writeBytes _ (0 + bs.DataLength) d).drop 0).take
          (bs.DataLength + d.length) = _
      rw [writeBytes_visible hwb, hCvis]
    · rw [if_pos hc]
  · -- in-place branch
    have e : bitstream_enqueue true bs d =
        (0, { bs with
              Data := some (writeBytes (bsBytes bs)
                (bs.DataOffset + bs.DataLength) d),
              DataLength := bs.DataLength + d.length }) := by
      simp only [bitstream_enqueue, hre]
      norm_num
      rw [if_neg hc]
      simp
    have hwb : bs.DataOffset + bs.DataLength + d.length ≤ (bsBytes bs).length := by
      omega
    rw [e]
    refine ⟨rfl, ⟨?_, ?_⟩, ?_, rfl, rfl, ?_⟩
    · show (writeBytes _ _ _).length = bs.MaxLength
      rw [writeBytes_length hwb, hlen]
    · show bs.DataOffset + (bs.DataLength + d.length) ≤ bs.MaxLength
      omega
    · show ((writeBytes (bsBytes bs) (bs.DataOffset + bs.DataLength) d).drop
          bs.DataOffset).take (bs.DataLength + d.length) = _
      rw [writeBytes_visible hwb]
      rfl
    · rw [if_neg hc]

/- When the capacity does not cover the required size, enqueue behaves
   as enqueue on the grown buffer (the realloc is a no-op there). -/

theorem enqueue_growth_eq (bs : MfxBitstream) (d : List Nat)
    (hg : ¬ bs.DataLength + d.length ≤ bs.MaxLength) :
    bitstream_enqueue true bs d =
      bitstream_enqueue true
        { bs with
          Data := some (bsBytes bs ++
            List.replicate (bs.DataLength + d.length - (bsBytes bs).length) 0),
          MaxLength := bs.DataLength + d.length } d := by
  have hL : bitstream_realloc true bs (bs.DataLength + d.length) =
      (0, { bs with
            Data := some (bsBytes bs ++
              List.replicate (bs.DataLength + d.length - (bsBytes bs).length) 0),
            MaxLength := bs.DataLength + d.length }) := by
    unfold bitstream_realloc
    rw [if_neg hg]
    rfl
  have hR : bitstream_realloc true
      { bs with
        Data := some (bsBytes bs ++
          List.replicate (bs.DataLength + d.length - (bsBytes bs).length) 0),
        MaxLength := bs.DataLength + d.length }
      (bs.DataLength + d.length) =
      (0, { bs with
            Data := some (bsBytes bs ++
              List.replicate (bs.DataLength + d.length - (bsBytes bs).length) 0),
            MaxLength := bs.DataLength + d.length }) := by
    unfold bitstream_realloc
    rw [if_pos (le_refl _)]
  simp only [bitstream_enqueue, hL, hR]

/- Full contract of one successful enqueue call. -/

theorem bitstream_enqueue_spec (bs : MfxBitstream) (d : List Nat)
    (h : bsWF bs) :
    (bitstream_enqueue true bs d).1 = 0 ∧
    bsWF (bitstream_enqueue true bs d).2 ∧
    bsVisible (bitstream_enqueue true bs d).2 = bsVisible bs ++ d ∧
    (bitstream_enqueue true bs d).2.DataLength = bs.DataLength + d.length ∧
    (bitstream_enqueue true bs d).2.MaxLength
      = max bs.MaxLength (bs.DataLength + d.length) ∧
    (bitstream_enqueue true bs d).2.DataOffset =
      (if max bs.MaxLength (bs.DataLength + d.length) - bs.DataOffset <
           bs.DataLength + d.length then 0 else bs.DataOffset) := by
  by_cases hg : bs.DataLength + d.length ≤ bs.MaxLength
  · rw [Nat.max_eq_left hg]
    exact enqueue_no_growth_spec bs d h hg
  · obtain ⟨hlen, hle⟩ := h
    have hWFg : bsWF { bs with
        Data := some (bsBytes bs ++
          List.replicate (bs.DataLength + d.length - (bsBytes bs).length) 0),
        MaxLength := bs.DataLength + d.length } := by
      constructor
      · show (bsBytes bs ++ _).length = _
        simp only [List.length_append, List.length_replicate]
        omega
      · show bs.DataOffset + bs.DataLength ≤ bs.DataLength + d.length
        omega
    have hgg : ({ bs with
        Data := some (bsBytes bs ++
          List.replicate (bs.DataLength + d.length - (bsBytes bs).length) 0),
        MaxLength := bs.DataLength + d.length } : MfxBitstream).DataLength
          + d.length ≤ bs.DataLength + d.length := le_refl _
    have hvisg : bsVisible { bs with
        Data := some (bsBytes bs ++
          List.replicate (bs.DataLength + d.length - (bsBytes bs).length) 0),
        MaxLength := bs.DataLength + d.length } = bsVisible bs := by
      unfold bsVisible
      show ((bsBytes bs ++ _).drop bs.DataOffset).take bs.DataLength = _
      exact vis_ext (by omega)
    have hmax : max bs.MaxLength (bs.DataLength + d.length)
        = bs.DataLength + d.length := Nat.max_eq_right (by omega)
    obtain ⟨g1, g2, g3, g4, g5, g6⟩ :=
      enqueue_no_growth_spec _ d hWFg hgg
    rw [enqueue_growth_eq bs d hg, hmax]
    refine ⟨g1, g2, ?_, g4, ?_, ?_⟩
    · rw [g3, hvisg]
    · rw [g5]
    · rw [g6]

/- Consuming bytes drops them from the front of the visible region. -/

theorem bsConsume_spec (bs : MfxBitstream) (k : Nat) (h : bsWF bs) :
    bsWF (bsConsume bs k) ∧
    bsVisible (bsConsume bs k) = (bsVisible bs).drop k := by
  obtain ⟨hlen, hle⟩ := h
  constructor
  · constructor
    · exact hlen
    · show bs.DataOffset + min k bs.DataLength +
          (bs.DataLength - min k bs.DataLength) ≤ bs.MaxLength
      omega
  · show ((bsBytes bs).drop (bs.DataOffset + min k bs.DataLength)).take
        (bs.DataLength - min k bs.DataLength)
      = (((bsBytes bs).drop bs.DataOffset).take bs.DataLength).drop k
    rw [List.drop_take, List.drop_drop]
    by_cases hk : k ≤ bs.DataLength
    · rw [Nat.min_eq_left hk]
    · rw [Nat.min_eq_right (by omega)]
      have h1 : bs.DataLength - bs.DataLength = 0 := by omega
      have h2 : bs.DataLength - k = 0 := by omega
      rw [h1, h2]
      simp

/- Any interleaving of successful enqueues and consumptions keeps the
   visible region equal to the spec-level byte stream. -/

theorem runBS_spec : ∀ (ops : List BSOp) (bs : MfxBitstream), bsWF bs →
    (runBS bs ops).1 = 0 ∧ bsWF (runBS bs ops).2 ∧
    bsVisible (runBS bs ops).2 = specVisible (bsVisible bs) ops := by
  intro ops
  induction ops with
  | nil => intro bs h; exact ⟨rfl, h, rfl⟩
  | cons op rest ih =>
    intro bs h
    cases op with
    | enqueue d =>
      obtain ⟨h1, h2, h3, _, _, _⟩ := bitstream_enqueue_spec bs d h
      have hnot : ¬ (bitstream_enqueue true bs d).1 < 0 := by
        rw [h1]
        omega
      simp only [runBS, if_neg hnot]
      obtain ⟨i1, i2, i3⟩ := ih (bitstream_enqueue true bs d).2 h2
      refine ⟨i1, i2, ?_⟩
      rw [i3, h3]
      rfl
    | consume k =>
      obtain ⟨h1, h2⟩ := bsConsume_spec bs k h
      simp only [runBS]
      obtain ⟨i1, i2, i3⟩ := ih (bsConsume bs k) h1
      refine ⟨i1, i2, ?_⟩
      rw [i3, h2]
      rfl

/-- C3: a successful enqueue computes required = length + payload size,
grows the capacity when needed, left-compacts the valid region to
offset 0 exactly when required exceeds capacity minus offset, appends
the payload and adds its size to length; and across any sequence of
successful enqueues and offset-advancing consumptions the visible byte
region equals the concatenation of the enqueued payloads minus the
consumed bytes. -/
theorem C3_enqueue_correctness (bs : MfxBitstream) (d : List Nat)
    (ops : List BSOp) (h : bsWF bs) :
    ((bitstream_enqueue true bs d).1 = 0 ∧
     bsVisible (bitstream_enqueue true bs d).2 = bsVisible bs ++ d ∧
     (bitstream_enqueue true bs d).2.DataLength = bs.DataLength + d.length ∧
     (bitstream_enqueue true bs d).2.MaxLength
       = max bs.MaxLength (bs.DataLength + d.length) ∧
     (bitstream_enqueue true bs d).2.DataOffset =
       (if max bs.MaxLength (bs.DataLength + d.length) - bs.DataOffset <
            bs.DataLength + d.length then 0 else bs.DataOffset)) ∧
    ((runBS bs ops).1 = 0 ∧
     bsVisible (runBS bs ops).2 = specVisible (bsVisible bs) ops) := by
  obtain ⟨a1, _, a3, a4, a5, a6⟩ := bitstream_enqueue_spec bs d h
  obtain ⟨b1, _, b3⟩ := runBS_spec ops bs h
  exact ⟨⟨a1, a3, a4, a5, a6⟩, b1, b3⟩

/-- C3 witness: from the empty buffer, three enqueues interleaved with
two consumptions (the first enqueue and the last force reallocation,
the last also forces a compaction) leave exactly the unconsumed suffix
visible. -/
theorem C3_witness :
    bsWF bsEmpty ∧
    bsVisible (runBS bsEmpty
        [.enqueue [1, 2, 3], .consume 2, .enqueue [4, 5], .consume 1,
         .enqueue [6, 7, 8, 9]]).2
      = specVisible (bsVisible bsEmpty)
          [.enqueue [1, 2, 3], .consume 2, .enqueue [4, 5], .consume 1,
           .enqueue [6, 7, 8, 9]] ∧
    specVisible (bsVisible bsEmpty)
        [.enqueue [1, 2, 3], .consume 2, .enqueue [4, 5], .consume 1,
         .enqueue [6, 7, 8, 9]] = [4, 5, 6, 7, 8, 9] :=
  ⟨⟨rfl, by decide⟩,
   (C3_enqueue_correctness bsEmpty []
      [.enqueue [1, 2, 3], .consume 2, .enqueue [4, 5], .consume 1,
       .enqueue [6, 7, 8, 9]] ⟨rfl, by decide⟩).2.2,
   by decide⟩

/-- C8: ff_qsv_reinit releases the surface pool and discards the
timestamp queue before re-running the full init, clears the
need_reinit flag, and throughout every path (success or failure of any
init step) the pending packet queue is exactly what it was before the
call, in order. -/
theorem C8_reinit_preserves_pending (env : InitEnv) (c : AVCodecContext)
    (q : QSVContext) :
    (ff_qsv_reinit env c q).2.2.1.pending = q.pending ∧
    (ff_qsv_reinit env c q).2.2.1.need_reinit = false ∧
    (ff_qsv_reinit env c q).2.2.1.surflist = [] := by
  unfold ff_qsv_reinit ff_qsv_init
  by_cases hc : codec_id_to_mfx c.codec_id < 0 <;>
  by_cases h1 : env.mfxInitRet < 0 <;>
  by_cases h2 : env.headerRet < 0 <;>
  by_cases h3 : env.queryRet < 0 <;>
  by_cases h4 : env.timestampsAllocOk = true <;>
  by_cases h5 : q.need_reinit = false <;>
  simp [hc, h1, h2, h3, h4, h5]

/- Canonical engine responses used by the decode-loop claims. -/

def moreDataResp : EngineResp :=
  { status := MFX_ERR_MORE_DATA, consume := 0, syncSet := false,
    outTimeStamp := 0, outPicStruct := 0 }

def busyResp : EngineResp :=
  { status := MFX_WRN_DEVICE_BUSY, consume := 0, syncSet := false,
    outTimeStamp := 0, outPicStruct := 0 }

def noneResp : EngineResp :=
  { status := MFX_ERR_NONE, consume := 0, syncSet := false,
    outTimeStamp := 0, outPicStruct := 0 }

def moreSurfaceResp : EngineResp :=
  { status := MFX_ERR_MORE_SURFACE, consume := 0, syncSet := false,
    outTimeStamp := 0, outPicStruct := 0 }

/- A small session state ready to accept input. -/

def qSample : QSVContext :=
  { bs := bsEmpty, tq := freshTQ 4, last_ret := MFX_ERR_MORE_DATA,
    need_reinit := false, pending := [], surflist := [⟨false, 0⟩],
    timeout := 10, codecId := 0, frameInfo := ⟨0, 0, 0, 0, 0, 0⟩ }

def pktW : AVPacket := { pts := 100, dts := 90, data := [1, 2, 3] }

/-- C4 counterexample: a decode call that submits a 3-byte packet and
ends with a terminal NeedMoreData status and no completed job returns
3 (the whole packet reported consumed, having been buffered), not the
zero bytes the claim requires. -/
theorem C4_counterexample :
    (ff_qsv_decode true true [moreDataResp] qSample pktW).map
        (fun o => (o.retval, o.got_frame))
      = some ((3 : Int), false) ∧ ((3 : Int), false).1 ≠ 0 := by
  constructor
  · decide
  · decide

/-- C4 (amended): when a decode call's submit loop ends with a terminal
NeedMoreData status and no completed async job, the call surfaces no
error and produces no frame, and it reports the caller's entire packet
as consumed (the packet was moved into the pending queue), i.e. it
returns the packet size rather than zero. -/
theorem C4_amended (surfOk getBufOk : Bool) (engine : List EngineResp)
    (q : QSVContext) (pkt : AVPacket) (st : LoopSt)
    (h : decodeLoop surfOk pkt.data.length engine
        (if pkt.data.length ≠ 0 then { q with pending := q.pending ++ [pkt] }
         else q).last_ret
        { q := if pkt.data.length ≠ 0 then { q with pending := q.pending ++ [pkt] }
               else q,
          bsNull := (if pkt.data.length ≠ 0 then
              { q with pending := q.pending ++ [pkt] } else q).need_reinit,
          busymsec := 0, sync := false, outTS := 0, outPS := 0 }
      = .brk MFX_ERR_MORE_DATA st)
    (hs : st.sync = false) :
    ff_qsv_decode surfOk getBufOk engine q pkt =
      some { retval := (pkt.data.length : Int), got_frame := false,
             framePts := 0, frameDts := 0, frameRepeatPict := 0,
             frameTFF := false, frameInterlaced := false,
             q := { st.q with last_ret := MFX_ERR_MORE_DATA } } := by
  simp only [ff_qsv_decode]
  rw [h]
  simp [hs]

/- The loop state in which the C4 witness run ends. -/

def stW : LoopSt :=
  { q := { bs := { Data := some [1, 2, 3], DataOffset := 0, DataLength := 3,
                   MaxLength := 3, TimeStamp := 100 },
           tq := { timestamps := [⟨100, 90⟩, noPair, noPair, noPair],
                   put_dts_cnt := 1, decoded_cnt := 0 },
           last_ret := MFX_ERR_MORE_DATA, need_reinit := false, pending := [],
           surflist := [⟨false, 0⟩], timeout := 10, codecId := 0,
           frameInfo := ⟨0, 0, 0, 0, 0, 0⟩ },
    bsNull := false, busymsec := 0, sync := false, outTS := 0, outPS := 0 }

/-- C4 witness: the amended statement at the concrete 3-byte run. -/
theorem C4_witness :
    ff_qsv_decode true true [moreDataResp] qSample pktW =
      some { retval := (pktW.data.length : Int), got_frame := false,
             framePts := 0, frameDts := 0, frameRepeatPict := 0,
             frameTFF := false, frameInterlaced := false,
             q := { stW.q with last_ret := MFX_ERR_MORE_DATA } } :=
  C4_amended true true [moreDataResp] qSample pktW stW (by decide) rfl

theorem bsConsume_zero (bs : MfxBitstream) : bsConsume bs 0 = bs := by
  simp [bsConsume]

theorem get_surface_pool_unchanged (ok : Bool) (fid : Nat)
    (pool : List Surface) (h : ∃ s ∈ pool, s.locked = false) :
    ∃ s : Surface, get_surface ok fid pool = some (s, pool) := by
  have hsome : (pool.find? (fun t => !t.locked)).isSome := by
    rw [List.find?_isSome]
    obtain ⟨s, hs, hl⟩ := h
    exact ⟨s, hs, by simp [hl]⟩
  cases hf : pool.find? (fun t => !t.locked) with
  | none => rw [hf] at hsome; exact absurd hsome (by simp)
  | some s => exact ⟨s, get_surface_first_unlocked ok fid pool s hf⟩

/- One loop iteration consuming a DeviceBusy engine response: abort
   with AVERROR(EIO) when the busy counter already exceeds the timeout,
   otherwise sleep, bump the counter and iterate. -/

theorem decodeLoop_busy_step (size : Nat) (es : List EngineResp)
    (ret0 : Int) (st : LoopSt)
    (hr0 : ret0 ≠ MFX_ERR_MORE_DATA)
    (hr1 : ret0 ≠ MFX_ERR_INCOMPATIBLE_VIDEO_PARAM)
    (hsurf : ∃ s ∈ st.q.surflist, s.locked = false) :
    decodeLoop true size (busyResp :: es) ret0 st =
      if st.q.timeout < st.busymsec then
        LoopRes.earlyRet (AVERROR EIO)
          { st with sync := false, outTS := 0, outPS := 0 }
      else
        decodeLoop true size es MFX_WRN_DEVICE_BUSY
          { st with
            sync := false, outTS := 0, outPS := 0,
            busymsec := st.busymsec + 1 } := by
  obtain ⟨s, hfind⟩ :=
    get_surface_pool_unchanged true st.q.surflist.length st.q.surflist hsurf
  by_cases hp : ret0 = MFX_WRN_VIDEO_PARAM_CHANGED
  · conv_lhs => rw [decodeLoop]
    simp only [if_neg hr0, if_pos hp, hfind, busyResp, bsConsume_zero,
               ite_self]
    rfl
  · conv_lhs => rw [decodeLoop]
    simp only [if_neg hr0, if_neg hp, if_neg hr1, hfind, busyResp,
               bsConsume_zero, ite_self]
    rfl

/- One loop iteration consuming a non-busy engine response that neither
   completes a job nor consumes bytes: the busy counter resets to zero
   and the loop continues exactly when the status is retryable. -/

theorem decodeLoop_step_nonbusy (resp : EngineResp) (size : Nat)
    (es : List EngineResp) (ret0 : Int) (st : LoopSt)
    (hb : resp.status ≠ MFX_WRN_DEVICE_BUSY)
    (hc : resp.consume = 0) (hs : resp.syncSet = false)
    (ht : resp.outTimeStamp = 0) (hps : resp.outPicStruct = 0)
    (hr0 : ret0 ≠ MFX_ERR_MORE_DATA)
    (hr1 : ret0 ≠ MFX_ERR_INCOMPATIBLE_VIDEO_PARAM)
    (hsurf : ∃ s ∈ st.q.surflist, s.locked = false) :
    decodeLoop true size (resp :: es) ret0 st =
      if retryStatus resp.status then
        decodeLoop true size es resp.status
          { st with sync := false, outTS := 0, outPS := 0, busymsec := 0 }
      else
        LoopRes.brk resp.status
          { st with sync := false, outTS := 0, outPS := 0, busymsec := 0 } := by
  obtain ⟨s, hfind⟩ :=
    get_surface_pool_unchanged true st.q.surflist.length st.q.surflist hsurf
  by_cases hp : ret0 = MFX_WRN_VIDEO_PARAM_CHANGED
  · conv_lhs => rw [decodeLoop]
    simp only [if_neg hr0, if_pos hp, hfind, hc, hs, ht, hps, if_neg hb,
               bsConsume_zero, ite_self]
  · conv_lhs => rw [decodeLoop]
    simp only [if_neg hr0, if_neg hp, if_neg hr1, hfind, hc, hs, ht, hps,
               if_neg hb, bsConsume_zero, ite_self]

/- A run of consecutive DeviceBusy responses that stays within the
   timeout budget only advances the busy counter. -/

theorem decodeLoop_busy_run (size : Nat) : ∀ (k : Nat) (es : List EngineResp)
    (ret0 : Int) (st : LoopSt),
    ret0 ≠ MFX_ERR_MORE_DATA →
    ret0 ≠ MFX_ERR_INCOMPATIBLE_VIDEO_PARAM →
    (∃ s ∈ st.q.surflist, s.locked = false) →
    st.sync = false → st.outTS = 0 → st.outPS = 0 →
    st.busymsec + k ≤ st.q.timeout + 1 →
    decodeLoop true size (List.replicate k busyResp ++ es) ret0 st =
      decodeLoop true size es (if k = 0 then ret0 else MFX_WRN_DEVICE_BUSY)
        { st with busymsec := st.busymsec + k } := by
  intro k
  induction k with
  | zero =>
    intro es ret0 st _ _ _ _ _ _ _
    rfl
  | succ k ih =>
    intro es ret0 st hr0 hr1 hsurf hsy hts hps hbud
    obtain ⟨stq, stbn, stbm, stsy, stts, stpsv⟩ := st
    simp only at hsy hts hps hbud hsurf
    subst hsy hts hps
    rw [List.replicate_succ, List.cons_append]
    rw [decodeLoop_busy_step size _ ret0 _ hr0 hr1 hsurf]
    rw [if_neg (by simp only []; omega)]
    rw [ih es MFX_WRN_DEVICE_BUSY _ (by decide) (by decide) hsurf rfl rfl rfl
        (by simp only []; omega)]
    have hk : ¬ (k + 1 = 0) := by omega
    rw [if_neg hk]
    by_cases hk0 : k = 0
    · subst hk0
      rw [if_pos rfl]
    · rw [if_neg hk0]
      have : stbm + 1 + k = stbm + (k + 1) := by omega
      rw [this]

/- Once a run of consecutive DeviceBusy responses pushes the busy
   counter past the timeout, the loop aborts with AVERROR(EIO). -/

theorem decodeLoop_busy_abort (size : Nat) : ∀ (k : Nat)
    (es : List EngineResp) (ret0 : Int) (st : LoopSt),
    ret0 ≠ MFX_ERR_MORE_DATA →
    ret0 ≠ MFX_ERR_INCOMPATIBLE_VIDEO_PARAM →
    (∃ s ∈ st.q.surflist, s.locked = false) →
    st.busymsec ≤ st.q.timeout + 1 →
    st.q.timeout + 1 < st.busymsec + k →
    ∃ stx, decodeLoop true size (List.replicate k busyResp ++ es) ret0 st =
      LoopRes.earlyRet (AVERROR EIO) stx := by
  intro k
  induction k with
  | zero =>
    intro es ret0 st _ _ _ hle hgt
    omega
  | succ k ih =>
    intro es ret0 st hr0 hr1 hsurf hle hgt
    rw [List.replicate_succ, List.cons_append]
    rw [decodeLoop_busy_step size _ ret0 _ hr0 hr1 hsurf]
    by_cases hb : st.q.timeout < st.busymsec
    · rw [if_pos hb]
      exact ⟨_, rfl⟩
    · rw [if_neg hb]
      exact ih es MFX_WRN_DEVICE_BUSY _ (by decide) (by decide) hsurf
        (by simp only []; omega) (by simp only []; omega)

/- Lifting loop outcomes through the wrapper: a loop exit with a
   non-error (or NeedMoreData) status and no completed job reports the
   packet as consumed and no frame; an early return inside the loop is
   the call's return value. -/

theorem ff_qsv_decode_brk_ok (surfOk getBufOk : Bool)
    (engine : List EngineResp) (q : QSVContext) (pkt : AVPacket)
    (r : Int) (st : LoopSt)
    (h : decodeLoop surfOk pkt.data.length engine
        (if pkt.data.length ≠ 0 then { q with pending := q.pending ++ [pkt] }
         else q).last_ret
        { q := if pkt.data.length ≠ 0 then { q with pending := q.pending ++ [pkt] }
               else q,
          bsNull := (if pkt.data.length ≠ 0 then
              { q with pending := q.pending ++ [pkt] } else q).need_reinit,
          busymsec := 0, sync := false, outTS := 0, outPS := 0 }
      = .brk r st)
    (hs : st.sync = false)
    (hok : r = MFX_ERR_MORE_DATA ∨ ¬ r < 0) :
    (ff_qsv_decode surfOk getBufOk engine q pkt).map DecodeOut.retval
      = some (pkt.data.length : Int) ∧
    (ff_qsv_decode surfOk getBufOk engine q pkt).map DecodeOut.got_frame
      = some false := by
  simp only [ff_qsv_decode]
  rw [h]
  by_cases hmd : r = MFX_ERR_MORE_DATA
  · subst hmd
    simp [hs]
  · have hge : ¬ r < 0 := by
      rcases hok with hmd2 | hge
      · exact absurd hmd2 hmd
      · exact hge
    simp [hs, hmd, hge]

theorem ff_qsv_decode_earlyRet (surfOk getBufOk : Bool)
    (engine : List EngineResp) (q : QSVContext) (pkt : AVPacket)
    (v : Int) (st : LoopSt)
    (h : decodeLoop surfOk pkt.data.length engine
        (if pkt.data.length ≠ 0 then { q with pending := q.pending ++ [pkt] }
         else q).last_ret
        { q := if pkt.data.length ≠ 0 then { q with pending := q.pending ++ [pkt] }
               else q,
          bsNull := (if pkt.data.length ≠ 0 then
              { q with pending := q.pending ++ [pkt] } else q).need_reinit,
          busymsec := 0, sync := false, outTS := 0, outPS := 0 }
      = .earlyRet v st) :
    (ff_qsv_decode surfOk getBufOk engine q pkt).map DecodeOut.retval
      = some v := by
  simp only [ff_qsv_decode]
  rw [h]
  rfl

/- A within-budget busy run followed by a success response ends the
   loop with status NONE and no completed job. -/

theorem loop_busy_then_none (size : Nat) (k : Nat) (ret0 : Int) (st : LoopSt)
    (hr0 : ret0 ≠ MFX_ERR_MORE_DATA)
    (hr1 : ret0 ≠ MFX_ERR_INCOMPATIBLE_VIDEO_PARAM)
    (hsurf : ∃ s ∈ st.q.surflist, s.locked = false)
    (hsy : st.sync = false) (hts : st.outTS = 0) (hps : st.outPS = 0)
    (hbud : st.busymsec + k ≤ st.q.timeout + 1) :
    ∃ stf, decodeLoop true size (List.replicate k busyResp ++ [noneResp])
        ret0 st = .brk MFX_ERR_NONE stf ∧ stf.sync = false := by
  rw [decodeLoop_busy_run size k [noneResp] ret0 st hr0 hr1 hsurf hsy hts hps
      hbud]
  have hret0 : (if k = 0 then ret0 else MFX_WRN_DEVICE_BUSY)
      ≠ MFX_ERR_MORE_DATA := by
    split
    · exact hr0
    · decide
  have hret1 : (if k = 0 then ret0 else MFX_WRN_DEVICE_BUSY)
      ≠ MFX_ERR_INCOMPATIBLE_VIDEO_PARAM := by
    split
    · exact hr1
    · decide
  rw [decodeLoop_step_nonbusy noneResp size []
      (if k = 0 then ret0 else MFX_WRN_DEVICE_BUSY)
      { q := st.q, bsNull := st.bsNull, busymsec := st.busymsec + k,
        sync := st.sync, outTS := st.outTS, outPS := st.outPS }
      (by decide) rfl rfl rfl rfl hret0 hret1 hsurf]
  rw [if_neg (by decide)]
  exact ⟨_, rfl, rfl⟩

/- A busy run, a surface-needed response (which resets the counter), a
   second busy run and a success response: the loop still ends with
   status NONE when each run separately fits the budget. -/

theorem loop_busy_surface_busy_none (size : Nat) (k k2 : Nat) (ret0 : Int)
    (st : LoopSt)
    (hr0 : ret0 ≠ MFX_ERR_MORE_DATA)
    (hr1 : ret0 ≠ MFX_ERR_INCOMPATIBLE_VIDEO_PARAM)
    (hsurf : ∃ s ∈ st.q.surflist, s.locked = false)
    (hsy : st.sync = false) (hts : st.outTS = 0) (hps : st.outPS = 0)
    (hbud : st.busymsec + k ≤ st.q.timeout + 1)
    (hbud2 : k2 ≤ st.q.timeout + 1) :
    ∃ stf, decodeLoop true size
        (List.replicate k busyResp ++
          moreSurfaceResp :: (List.replicate k2 busyResp ++ [noneResp]))
        ret0 st = .brk MFX_ERR_NONE stf ∧ stf.sync = false := by
  rw [decodeLoop_busy_run size k _ ret0 st hr0 hr1 hsurf hsy hts hps hbud]
  have hret0 : (if k = 0 then ret0 else MFX_WRN_DEVICE_BUSY)
      ≠ MFX_ERR_MORE_DATA := by
    split
    · exact hr0
    · decide
  have hret1 : (if k = 0 then ret0 else MFX_WRN_DEVICE_BUSY)
      ≠ MFX_ERR_INCOMPATIBLE_VIDEO_PARAM := by
    split
    · exact hr1
    · decide
  rw [decodeLoop_step_nonbusy moreSurfaceResp size
      (List.replicate k2 busyResp ++ [noneResp])
      (if k = 0 then ret0 else MFX_WRN_DEVICE_BUSY)
      { q := st.q, bsNull := st.bsNull, busymsec := st.busymsec + k,
        sync := st.sync, outTS := st.outTS, outPS := st.outPS }
      (by decide) rfl rfl rfl rfl hret0 hret1 hsurf]
  rw [if_pos (by decide)]
  exact loop_busy_then_none size k2 moreSurfaceResp.status _ (by decide)
    (by decide) hsurf rfl rfl rfl
    (by show 0 + k2 ≤ st.q.timeout + 1; omega)

/-- C6: within one decode call, each DeviceBusy engine response sleeps
one millisecond and bumps the busy counter, any other response resets
the counter to zero, and the call aborts with AVERROR(EIO) exactly when
a consecutive busy run pushes the accumulated busy time past the
timeout budget (timeout + 1 slept milliseconds are tolerated, the next
busy response aborts), and never before: k busy responses with
k ≤ timeout + 1 complete normally, k > timeout + 1 abort with EIO, and
two runs of up to timeout + 1 busy responses separated by a non-busy
response also complete normally. -/
theorem C6_busy_timeout (q : QSVContext) (pkt : AVPacket) (k k2 : Nat)
    (hr0 : q.last_ret ≠ MFX_ERR_MORE_DATA)
    (hr1 : q.last_ret ≠ MFX_ERR_INCOMPATIBLE_VIDEO_PARAM)
    (hsurf : ∃ s ∈ q.surflist, s.locked = false) :
    (k ≤ q.timeout + 1 →
      (ff_qsv_decode true true (List.replicate k busyResp ++ [noneResp])
          q pkt).map DecodeOut.retval = some (pkt.data.length : Int)) ∧
    (q.timeout + 1 < k →
      (ff_qsv_decode true true (List.replicate k busyResp ++ [noneResp])
          q pkt).map DecodeOut.retval = some (AVERROR EIO)) ∧
    (k ≤ q.timeout + 1 → k2 ≤ q.timeout + 1 →
      (ff_qsv_decode true true
          (List.replicate k busyResp ++
            moreSurfaceResp :: (List.replicate k2 busyResp ++ [noneResp]))
          q pkt).map DecodeOut.retval = some (pkt.data.length : Int)) := by
  have hlr0 : (if pkt.data.length ≠ 0 then
      { q with pending := q.pending ++ [pkt] } else q).last_ret
      ≠ MFX_ERR_MORE_DATA := by
    split
    · exact hr0
    · exact hr0
  have hlr1 : (if pkt.data.length ≠ 0 then
      { q with pending := q.pending ++ [pkt] } else q).last_ret
      ≠ MFX_ERR_INCOMPATIBLE_VIDEO_PARAM := by
    split
    · exact hr1
    · exact hr1
  have hsurf1 : ∃ s ∈ (if pkt.data.length ≠ 0 then
      { q with pending := q.pending ++ [pkt] } else q).surflist,
      s.locked = false := by
    split
    · exact hsurf
    · exact hsurf
  have htime : (if pkt.data.length ≠ 0 then
      { q with pending := q.pending ++ [pkt] } else q).timeout = q.timeout := by
    split
    · rfl
    · rfl
  refine ⟨?_, ?_, ?_⟩
  · intro hk
    obtain ⟨stf, hloop, hsf⟩ :=
      loop_busy_then_none pkt.data.length k
        (if pkt.data.length ≠ 0 then
          { q with pending := q.pending ++ [pkt] } else q).last_ret
        { q := if pkt.data.length ≠ 0 then
            { q with pending := q.pending ++ [pkt] } else q,
          bsNull := (if pkt.data.length ≠ 0 then
            { q with pending := q.pending ++ [pkt] } else q).need_reinit,
          busymsec := 0, sync := false, outTS := 0, outPS := 0 }
        hlr0 hlr1 hsurf1 rfl rfl rfl
        (by show 0 + k ≤ (if pkt.data.length ≠ 0 then
              { q with pending := q.pending ++ [pkt] } else q).timeout + 1
            rw [htime]
            omega)
    exact (ff_qsv_decode_brk_ok true true _ q pkt _ stf hloop hsf
      (Or.inr (by decide))).1
  · intro hk
    obtain ⟨stx, hloop⟩ :=
      decodeLoop_busy_abort pkt.data.length k [noneResp]
        (if pkt.data.length ≠ 0 then
          { q with pending := q.pending ++ [pkt] } else q).last_ret
        { q := if pkt.data.length ≠ 0 then
            { q with pending := q.pending ++ [pkt] } else q,
          bsNull := (if pkt.data.length ≠ 0 then
            { q with pending := q.pending ++ [pkt] } else q).need_reinit,
          busymsec := 0, sync := false, outTS := 0, outPS := 0 }
        hlr0 hlr1 hsurf1
        (by show (0:Nat) ≤ (if pkt.data.length ≠ 0 then
              { q with pending := q.pending ++ [pkt] } else q).timeout + 1
            omega)
        (by show (if pkt.data.length ≠ 0 then
              { q with pending := q.pending ++ [pkt] } else q).timeout + 1
              < 0 + k
            rw [htime]
            omega)
    exact ff_qsv_decode_earlyRet true true _ q pkt _ stx hloop
  · intro hk hk2
    obtain ⟨stf, hloop, hsf⟩ :=
      loop_busy_surface_busy_none pkt.data.length k k2
        (if pkt.data.length ≠ 0 then
          { q with pending := q.pending ++ [pkt] } else q).last_ret
        { q := if pkt.data.length ≠ 0 then
            { q with pending := q.pending ++ [pkt] } else q,
          bsNull := (if pkt.data.length ≠ 0 then
            { q with pending := q.pending ++ [pkt] } else q).need_reinit,
          busymsec := 0, sync := false, outTS := 0, outPS := 0 }
        hlr0 hlr1 hsurf1 rfl rfl rfl
        (by show 0 + k ≤ (if pkt.data.length ≠ 0 then
              { q with pending := q.pending ++ [pkt] } else q).timeout + 1
            rw [htime]
            omega)
        (by show k2 ≤ (if pkt.data.length ≠ 0 then
              { q with pending := q.pending ++ [pkt] } else q).timeout + 1
            rw [htime]
            omega)
    exact (ff_qsv_decode_brk_ok true true _ q pkt _ stf hloop hsf
      (Or.inr (by decide))).1

/- A session state whose resumed status does not request more data, so
   the loop proceeds straight to the engine call. -/

def qBusy : QSVContext := { qSample with last_ret := MFX_WRN_VIDEO_PARAM_CHANGED }

/-- C6 witness: with timeout 10, eleven consecutive busy responses are
tolerated (the call returns the packet size), twelve abort with
AVERROR(EIO), and two busy runs of eleven separated by a more-surface
response complete normally. -/
theorem C6_witness :
    (ff_qsv_decode true true (List.replicate 11 busyResp ++ [noneResp])
        qBusy pktW).map DecodeOut.retval = some (pktW.data.length : Int) ∧
    (ff_qsv_decode true true (List.replicate 12 busyResp ++ [noneResp])
        qBusy pktW).map DecodeOut.retval = some (AVERROR EIO) ∧
    (ff_qsv_decode true true
        (List.replicate 11 busyResp ++
          moreSurfaceResp :: (List.replicate 11 busyResp ++ [noneResp]))
        qBusy pktW).map DecodeOut.retval = some (pktW.data.length : Int) :=
  ⟨(C6_busy_timeout qBusy pktW 11 0 (by decide) (by decide)
      ⟨⟨false, 0⟩, by decide, rfl⟩).1 (by decide),
   (C6_busy_timeout qBusy pktW 12 0 (by decide) (by decide)
      ⟨⟨false, 0⟩, by decide, rfl⟩).2.1 (by decide),
   (C6_busy_timeout qBusy pktW 11 11 (by decide) (by decide)
      ⟨⟨false, 0⟩, by decide, rfl⟩).2.2 (by decide) (by decide)⟩

/- Lemmas for the timestamp-queue simulation. -/

theorem realloc_grow (ts : List QSVTimeStamp) (n : Nat) (h : ts.length ≤ n) :
    realloc_timestamps ts n = ts ++ List.replicate (n - ts.length) noPair := by
  unfold realloc_timestamps
  rw [List.take_of_length_le h]

/- Setting a slot in the dead tail appends the new pair (when live) to
   the live list and keeps the slots beyond it dead. -/

theorem set_fresh_filter (ts : List QSVTimeStamp) (cnt : Nat)
    (x : QSVTimeStamp) (hlt : cnt < ts.length)
    (hdead : ∀ t ∈ ts.drop cnt, t.pts = AV_NOPTS_VALUE) :
    (ts.set cnt x).filter (fun t => ¬ t.pts = AV_NOPTS_VALUE)
      = ts.filter (fun t => ¬ t.pts = AV_NOPTS_VALUE) ++
        (if x.pts = AV_NOPTS_VALUE then [] else [x]) ∧
    (∀ t ∈ (ts.set cnt x).drop (cnt + 1), t.pts = AV_NOPTS_VALUE) := by
  have hdead1 : ∀ t ∈ ts.drop (cnt + 1), t.pts = AV_NOPTS_VALUE := by
    intro t ht
    apply hdead
    rw [List.drop_eq_getElem_cons hlt]
    exact List.mem_cons_of_mem _ ht
  have hdnil : (ts.drop cnt).filter
      (fun t => ¬ t.pts = AV_NOPTS_VALUE) = [] := by
    rw [List.filter_eq_nil]
    intro t ht
    simp [hdead t ht]
  have hdnil1 : (ts.drop (cnt + 1)).filter
      (fun t => ¬ t.pts = AV_NOPTS_VALUE) = [] := by
    rw [List.filter_eq_nil]
    intro t ht
    simp [hdead1 t ht]
  constructor
  · rw [List.set_eq_take_cons_drop x hlt]
    rw [List.filter_append, List.filter_cons]
    conv_rhs => rw [← List.take_append_drop cnt ts, List.filter_append, hdnil]
    rw [hdnil1]
    by_cases hx : x.pts = AV_NOPTS_VALUE
    · rw [if_neg (by simp [hx])]
      simp [hx]
    · rw [if_pos (by simp [hx])]
      simp [hx]
  · intro t ht
    rw [List.drop_set, if_pos (by omega : cnt < cnt + 1)] at ht
    exact hdead1 t ht

/- Distinct keys force equal entries. -/

theorem key_unique : ∀ {m : List (Int × Int)}, (m.map Prod.fst).Nodup →
    ∀ {a b : Int × Int}, a ∈ m → b ∈ m → a.1 = b.1 → a = b := by
  intro m
  induction m with
  | nil => intro _ a b ha; exact absurd ha (by simp)
  | cons e rest ih =>
    intro hnd a b ha hb hk
    rw [List.map_cons, List.nodup_cons] at hnd
    rcases List.mem_cons.mp ha with ha1 | ha2 <;>
      rcases List.mem_cons.mp hb with hb1 | hb2
    · rw [ha1, hb1]
    · exfalso
      apply hnd.1
      have heb : e.1 = b.1 := by rw [← ha1]; exact hk
      rw [heb]
      exact List.mem_map_of_mem Prod.fst hb2
    · exfalso
      apply hnd.1
      have hea : e.1 = a.1 := by rw [← hb1]; exact hk.symm
      rw [hea]
      exact List.mem_map_of_mem Prod.fst ha2
    · exact ih hnd.2 ha2 hb2 hk

theorem InvTS_fresh (n : Nat) (hn : 1 ≤ n) : InvTS (freshTQ n) [] := by
  refine ⟨rfl, ?_, ?_, ?_, ?_, ?_, ?_⟩
  · simpa [freshTQ] using hn
  · simp [freshTQ]
  · intro t ht
    simp only [freshTQ, List.drop_zero] at ht
    rw [(List.mem_replicate.mp ht).2]
    rfl
  · simp [live, freshTQ, List.filter_replicate, noPair]
  · simp
  · simp

/- Inserting into the fresh slot put_dts_cnt preserves the simulation
   relation, provided the new pts is sentinel or not pending. -/

theorem tq_insert_sim (q : TQ) (m : List (Int × Int)) (p d : Int)
    (h0 : q.decoded_cnt = 0)
    (hlt : q.put_dts_cnt < q.timestamps.length)
    (h3 : ∀ t ∈ q.timestamps.drop q.put_dts_cnt, t.pts = AV_NOPTS_VALUE)
    (h4 : live q = m.map pair)
    (h5 : (m.map Prod.fst).Nodup)
    (h6 : ∀ e ∈ m, e.1 ≠ AV_NOPTS_VALUE)
    (hp : p = AV_NOPTS_VALUE ∨ p ∉ m.map Prod.fst) :
    InvTS (tq_insert q p d) (specPut m p d) := by
  obtain ⟨hfil, hdead2⟩ :=
    set_fresh_filter q.timestamps q.put_dts_cnt ⟨p, d⟩ hlt h3
  have hidx : q.put_dts_cnt % q.timestamps.length = q.put_dts_cnt :=
    Nat.mod_eq_of_lt hlt
  refine ⟨h0, ?_, ?_, ?_, ?_, ?_, ?_⟩
  · show 1 ≤ (q.timestamps.set _ _).length
    rw [List.length_set]
    omega
  · show q.put_dts_cnt + 1 ≤ (q.timestamps.set _ _).length
    rw [List.length_set]
    omega
  · show ∀ t ∈ (q.timestamps.set (q.put_dts_cnt % q.timestamps.length)
        ⟨p, d⟩).drop (q.put_dts_cnt + 1), t.pts = AV_NOPTS_VALUE
    rw [hidx]
    exact hdead2
  · show (q.timestamps.set (q.put_dts_cnt % q.timestamps.length)
        ⟨p, d⟩).filter _ = (specPut m p d).map pair
    rw [hidx, hfil]
    unfold specPut
    by_cases hps : p = AV_NOPTS_VALUE
    · rw [if_pos hps, if_pos hps, ← h4]
      simp [live]
    · rw [if_neg hps, if_neg hps, List.map_append, ← h4]
      simp [live, pair]
  · unfold specPut
    by_cases hps : p = AV_NOPTS_VALUE
    · rw [if_pos hps]
      exact h5
    · rw [if_neg hps, List.map_append]
      rw [List.nodup_append]
      refine ⟨h5, by simp, ?_⟩
      intro a ha hb
      simp only [List.map_cons, List.map_nil, List.mem_cons,
                 List.not_mem_nil, or_false] at hb
      rcases hp with hp1 | hp2
      · exact hps hp1
      · rw [hb] at ha
        exact hp2 ha
  · unfold specPut
    by_cases hps : p = AV_NOPTS_VALUE
    · rw [if_pos hps]
      exact h6
    · rw [if_neg hps]
      intro e he
      rcases List.mem_append.mp he with he1 | he2
      · exact h6 e he1
      · have : e = (p, d) := by simpa using he2
        rw [this]
        exact hps

/- One get call returns what the pending map dictates and preserves the
   simulation relation. -/

theorem get_dts_sim (q : TQ) (m : List (Int × Int)) (p : Int)
    (hI : InvTS q m) :
    (get_dts q p).1 = (specGet m p).1.1 ∧
    (get_dts q p).2.1 = (specGet m p).1.2 ∧
    InvTS (get_dts q p).2.2 (specGet m p).2 := by
  obtain ⟨h0, h1, h2, h3, h4, h5, h6⟩ := hI
  by_cases hps : p = AV_NOPTS_VALUE
  · unfold get_dts specGet
    rw [if_pos hps, if_pos hps]
    exact ⟨rfl, rfl, h0, h1, h2, h3, h4, h5, h6⟩
  · cases hf : m.find? (fun e => e.1 = p) with
    | none =>
      have hnone : ∀ e ∈ m, ¬ (e.1 = p) := by
        intro e he
        have := List.find?_eq_none.mp hf e he
        simpa using this
      have hnomatch : ∀ t ∈ q.timestamps,
          (fun t : QSVTimeStamp => decide (t.pts = p)) t = false := by
        intro t ht
        simp only [decide_eq_false_iff_not]
        intro htp
        by_cases htd : t.pts = AV_NOPTS_VALUE
        · rw [htp] at htd
          exact hps htd
        · have htl : t ∈ live q := List.mem_filter.mpr ⟨ht, by simp [htd]⟩
          rw [h4] at htl
          obtain ⟨e, hem, hpe⟩ := List.mem_map.mp htl
          have hkey : e.1 = p := by
            rw [← htp, ← hpe]
            rfl
          exact hnone e hem hkey
      have hidx : q.timestamps.findIdx (fun t => t.pts = p)
          = q.timestamps.length := List.findIdx_eq_length.mpr hnomatch
      unfold get_dts specGet
      rw [if_neg hps, if_neg hps, hf, dif_neg (by rw [hidx]; omega)]
      exact ⟨rfl, rfl, h0, h1, h2, h3, h4, h5, h6⟩
    | some e =>
      have hep : e.1 = p := by simpa using List.find?_some hf
      have hem : e ∈ m := List.mem_of_find?_eq_some hf
      have hlivee : pair e ∈ live q := by
        rw [h4]
        exact List.mem_map_of_mem pair hem
      have hets : pair e ∈ q.timestamps := (List.mem_filter.mp hlivee).1
      have hidxlt : q.timestamps.findIdx (fun t => t.pts = p)
          < q.timestamps.length :=
        List.findIdx_lt_length_of_exists ⟨pair e, hets, by simp [pair, hep]⟩
      have hti_p : (q.timestamps.get
          ⟨q.timestamps.findIdx (fun t => t.pts = p), hidxlt⟩).pts = p := by
        have := @List.findIdx_getElem _
          (fun t : QSVTimeStamp => decide (t.pts = p)) q.timestamps hidxlt
        rw [List.get_eq_getElem]
        simpa using this
      set i := q.timestamps.findIdx (fun t => t.pts = p) with hidef
      set ti := q.timestamps.get ⟨i, hidxlt⟩ with htidef
      have hti_mem : ti ∈ q.timestamps := by
        rw [htidef, List.get_eq_getElem]
        exact List.getElem_mem hidxlt
      have hti_live : ti ∈ live q :=
        List.mem_filter.mpr ⟨hti_mem, by simp [hti_p, hps]⟩
      have hti_map : ti ∈ m.map pair := by
        rw [← h4]
        exact hti_live
      obtain ⟨e2, he2m, he2t⟩ := List.mem_map.mp hti_map
      have he2k : e2.1 = e.1 := by
        rw [hep, ← hti_p, ← he2t]
        rfl
      have he2e : e2 = e := key_unique h5 he2m hem he2k
      have hti_eq : ti = pair e := by
        rw [← he2t, he2e]
      have hipc : i < q.put_dts_cnt := by
        by_contra hge
        push_neg at hge
        have hj : i - q.put_dts_cnt
            < (q.timestamps.drop q.put_dts_cnt).length := by
          rw [List.length_drop]
          omega
        have hvv : (q.timestamps.drop q.put_dts_cnt).get
            ⟨i - q.put_dts_cnt, hj⟩ = ti := by
          rw [List.get_eq_getElem, List.getElem_drop, htidef,
              List.get_eq_getElem]
          congr 1
          show q.put_dts_cnt + (i - q.put_dts_cnt) = i
          omega
        have hmemdrop : ti ∈ q.timestamps.drop q.put_dts_cnt := by
          rw [← hvv, List.get_eq_getElem]
          exact List.getElem_mem hj
        have hdm := h3 _ hmemdrop
        rw [hdm] at hti_p
        exact hps hti_p.symm
      have hgete : get_dts q p =
          (0, some ti.dts,
           { q with timestamps :=
               (q.timestamps.set i ⟨AV_NOPTS_VALUE, ti.dts⟩) }) := by
        unfold get_dts
        rw [if_neg hps, dif_pos hidxlt]
      have hspece : specGet m p =
          ((0, some e.2), m.filter (fun e2 => ¬ e2.1 = p)) := by
        unfold specGet
        rw [if_neg hps, hf]
      rw [hgete, hspece]
      have hsplit2 : q.timestamps.drop i = ti :: q.timestamps.drop (i + 1) := by
        rw [List.drop_eq_getElem_cons hidxlt, htidef, List.get_eq_getElem]
      have hmp : m.map pair =
          (q.timestamps.take i).filter (fun t => ¬ t.pts = AV_NOPTS_VALUE) ++
          ti :: (q.timestamps.drop (i + 1)).filter
            (fun t => ¬ t.pts = AV_NOPTS_VALUE) := by
        rw [← h4]
        unfold live
        conv_lhs => rw [← List.take_append_drop i q.timestamps]
        rw [List.filter_append, hsplit2, List.filter_cons,
            if_pos (by simp [hti_p, hps])]
      have hkeysnd : (((q.timestamps.take i).filter
            (fun t => ¬ t.pts = AV_NOPTS_VALUE)).map QSVTimeStamp.pts ++
          ti.pts :: ((q.timestamps.drop (i + 1)).filter
            (fun t => ¬ t.pts = AV_NOPTS_VALUE)).map QSVTimeStamp.pts).Nodup := by
        have hkeys : m.map Prod.fst = (m.map pair).map QSVTimeStamp.pts := by
          rw [List.map_map]
          rfl
        rw [hkeys, hmp, List.map_append, List.map_cons] at h5
        exact h5
      rw [List.nodup_append] at hkeysnd
      obtain ⟨hndA, hndCB, hdisj⟩ := hkeysnd
      rw [List.nodup_cons] at hndCB
      have hpA : ∀ a ∈ (q.timestamps.take i).filter
          (fun t => ¬ t.pts = AV_NOPTS_VALUE), a.pts ≠ p := by
        intro a ha hap
        have : a.pts ∈ _ := List.mem_map_of_mem QSVTimeStamp.pts ha
        have hmem := hdisj this
        apply hmem
        rw [hap, ← hti_p]
        exact List.mem_cons_self _ _
      have hpB : ∀ a ∈ (q.timestamps.drop (i + 1)).filter
          (fun t => ¬ t.pts = AV_NOPTS_VALUE), a.pts ≠ p := by
        intro a ha hap
        apply hndCB.1
        rw [hti_p, ← hap]
        exact List.mem_map_of_mem QSVTimeStamp.pts ha
      have hm' : (m.filter (fun e2 => ¬ e2.1 = p)).map pair =
          (q.timestamps.take i).filter (fun t => ¬ t.pts = AV_NOPTS_VALUE) ++
          (q.timestamps.drop (i + 1)).filter
            (fun t => ¬ t.pts = AV_NOPTS_VALUE) := by
        have hcomm : (m.filter (fun e2 => ¬ e2.1 = p)).map pair
            = (m.map pair).filter (fun t => ¬ t.pts = p) := by
          rw [List.map_filter]
          rfl
        have hfA : ((q.timestamps.take i).filter
            (fun t => ¬ t.pts = AV_NOPTS_VALUE)).filter
              (fun t => ¬ t.pts = p)
            = (q.timestamps.take i).filter
                (fun t => ¬ t.pts = AV_NOPTS_VALUE) :=
          List.filter_eq_self.mpr (fun a ha => by simp [hpA a ha])
        have hfB : ((q.timestamps.drop (i + 1)).filter
            (fun t => ¬ t.pts = AV_NOPTS_VALUE)).filter
              (fun t => ¬ t.pts = p)
            = (q.timestamps.drop (i + 1)).filter
                (fun t => ¬ t.pts = AV_NOPTS_VALUE) :=
          List.filter_eq_self.mpr (fun a ha => by simp [hpB a ha])
        rw [hcomm, hmp, List.filter_append, List.filter_cons,
            if_neg (by simp [hti_p]), hfA, hfB]
      refine ⟨rfl, ?_, ?_, ?_, ?_, ?_, ?_, ?_, ?_⟩
      · show some ti.dts = some e.2
        rw [hti_eq]
        rfl
      · exact h0
      · show 1 ≤ (q.timestamps.set _ _).length
        rw [List.length_set]
        omega
      · show q.put_dts_cnt ≤ (q.timestamps.set _ _).length
        rw [List.length_set]
        omega
      · show ∀ t ∈ (q.timestamps.set i ⟨AV_NOPTS_VALUE, ti.dts⟩).drop
            q.put_dts_cnt, t.pts = AV_NOPTS_VALUE
        intro t ht
        rw [List.drop_set, if_pos hipc] at ht
        exact h3 t ht
      · show (q.timestamps.set i ⟨AV_NOPTS_VALUE, ti.dts⟩).filter _
            = (m.filter (fun e2 => ¬ e2.1 = p)).map pair
        rw [hm', List.set_eq_take_cons_drop _ hidxlt, List.filter_append,
            List.filter_cons]
        rw [if_neg (by simp)]
      · have hsub : ((m.filter (fun e2 => ¬ e2.1 = p)).map Prod.fst).Sublist
            (m.map Prod.fst) :=
          List.Sublist.map Prod.fst (List.filter_sublist m)
        exact hsub.nodup h5
      · intro e3 he3
        exact h6 e3 (List.mem_of_mem_filter he3)

/- One put call preserves the simulation relation. -/

theorem put_dts_sim (q : TQ) (m : List (Int × Int)) (p d : Int)
    (hI : InvTS q m)
    (hp : p = AV_NOPTS_VALUE ∨ (m.find? (fun e => e.1 = p)).isNone = true) :
    (put_dts true q p d).1 = 0 ∧
    InvTS (put_dts true q p d).2 (specPut m p d) := by
  obtain ⟨h0, h1, h2, h3, h4, h5, h6⟩ := hI
  have hp2 : p = AV_NOPTS_VALUE ∨ p ∉ m.map Prod.fst := by
    rcases hp with hp1 | hpn
    · exact Or.inl hp1
    · right
      intro hmem
      obtain ⟨e, hem, hek⟩ := List.mem_map.mp hmem
      have := List.find?_eq_none.mp (Option.isNone_iff_eq_none.mp hpn) e hem
      simp [hek] at this
  by_cases hfull : q.timestamps.length = q.put_dts_cnt
  · have hcond : q.decoded_cnt = 0 ∧ q.timestamps.length = q.put_dts_cnt :=
      ⟨h0, hfull⟩
    have hre := realloc_grow q.timestamps (q.timestamps.length * 2) (by omega)
    set L := q.timestamps ++ List.replicate (q.timestamps.length * 2 - q.timestamps.length) noPair with hLdef
    have hput : put_dts true q p d =
        (0, tq_insert { q with timestamps := L } p d) := by
      unfold put_dts
      rw [if_pos hcond, if_pos rfl, hre]
    rw [hput]
    refine ⟨rfl, ?_⟩
    show InvTS (tq_insert { q with timestamps := L } p d) (specPut m p d)
    apply tq_insert_sim { q with timestamps := L } m p d h0
    · show q.put_dts_cnt < L.length
      rw [hLdef, List.length_append, List.length_replicate]
      omega
    · show ∀ t ∈ L.drop q.put_dts_cnt, t.pts = AV_NOPTS_VALUE
      intro t ht
      rw [hLdef, ← hfull, List.drop_append_eq_append_drop, Nat.sub_self,
          List.drop_length, List.drop_zero, List.nil_append] at ht
      rw [(List.mem_replicate.mp ht).2]
      rfl
    · show L.filter _ = m.map pair
      rw [← h4, hLdef]
      show (q.timestamps ++ _).filter _ = _
      rw [List.filter_append, List.filter_replicate]
      simp [live, noPair]
    · exact h5
    · exact h6
    · exact hp2
  · have hcond : ¬ (q.decoded_cnt = 0 ∧ q.timestamps.length = q.put_dts_cnt) := by
      rintro ⟨_, hcc⟩
      exact hfull hcc
    have hcond2 : ¬ (q.decoded_cnt = 1 ∧
        q.timestamps.length < q.put_dts_cnt + 32) := by
      rintro ⟨hcc, _⟩
      rw [h0] at hcc
      exact absurd hcc (by decide)
    have hput : put_dts true q p d = (0, tq_insert q p d) := by
      unfold put_dts
      rw [if_neg hcond, if_neg hcond2]
    rw [hput]
    exact ⟨rfl, tq_insert_sim q m p d h0 (by omega) h3 h4 h5 h6 hp2⟩

/- Any legal sequence of put/get calls behaves exactly like the
   spec-level pending map. -/

theorem runTS_sim : ∀ (ops : List TSOp) (q : TQ) (m : List (Int × Int)),
    InvTS q m → legalTS m ops = true →
    (runTS q ops).2 = specRunTS m ops := by
  intro ops
  induction ops with
  | nil => intro q m _ _; rfl
  | cons op rest ih =>
    intro q m hI hleg
    cases op with
    | put p d =>
      rw [legalTS] at hleg
      rw [Bool.and_eq_true] at hleg
      obtain ⟨hc, hrest⟩ := hleg
      have hp : p = AV_NOPTS_VALUE ∨
          (m.find? (fun e => e.1 = p)).isNone = true := by
        rw [Bool.or_eq_true] at hc
        rcases hc with hc1 | hc2
        · exact Or.inl (of_decide_eq_true hc1)
        · exact Or.inr hc2
      obtain ⟨_, hInv2⟩ := put_dts_sim q m p d hI hp
      show (runTS (put_dts true q p d).2 rest).2 = specRunTS (specPut m p d) rest
      exact ih _ _ hInv2 hrest
    | get p =>
      rw [legalTS] at hleg
      obtain ⟨e1, e2, hInv2⟩ := get_dts_sim q m p hI
      show ((get_dts q p).1, (get_dts q p).2.1) ::
          (runTS (get_dts q p).2.2 rest).2
        = (specGet m p).1 :: specRunTS (specGet m p).2 rest
      rw [e1, e2, ih _ _ hInv2 hleg]

/-- C1 (amended): starting from a freshly initialized timestamp queue,
for every sequence of put/get calls in any interleaving in which no put
resubmits a presentation timestamp that is still pending, each get with
a non-sentinel pts that was previously put and not yet retrieved
returns exactly the dts paired with that pts at put time and marks that
slot consumed, a second get with the same pts (with no intervening put
of that pts) fails with the InternalBug code, and a get with the
sentinel pts returns the sentinel: the call results coincide with the
specification-level pending-map semantics. -/
theorem C1_timestamp_roundtrip (n : Nat) (ops : List TSOp) (hn : 1 ≤ n)
    (hleg : legalTS [] ops = true) :
    (runTS (freshTQ n) ops).2 = specRunTS [] ops :=
  runTS_sim ops (freshTQ n) [] (InvTS_fresh n hn) hleg

/-- C1 witness: a legal trace with a re-put after retrieval: the first
get of 6 returns its dts, the second fails with AVERROR_BUG, and after
re-putting 6 the next get succeeds again, exactly as the specification
map dictates. -/
theorem C1_witness :
    legalTS [] [.put 5 10, .put 6 20, .get 6, .get 6, .put 6 40, .get 5,
      .get 6] = true ∧
    (runTS (freshTQ 2) [.put 5 10, .put 6 20, .get 6, .get 6, .put 6 40,
      .get 5, .get 6]).2
      = specRunTS [] [.put 5 10, .put 6 20, .get 6, .get 6, .put 6 40,
        .get 5, .get 6] ∧
    specRunTS [] [.put 5 10, .put 6 20, .get 6, .get 6, .put 6 40, .get 5,
      .get 6]
      = [(0, some 20), (AVERROR_BUG, none), (0, some 10), (0, some 40)] :=
  ⟨by decide,
   C1_timestamp_roundtrip 2 [.put 5 10, .put 6 20, .get 6, .get 6,
     .put 6 40, .get 5, .get 6] (by decide) (by decide),
   by decide⟩

/-- C1 counterexample: the claim as stated fails when the same pts is
put twice before being retrieved: after put(5,10), put(5,20), get(5),
a second get(5) with no intervening put of 5 succeeds with dts 20
instead of failing with the InternalBug code. -/
theorem C1_counterexample :
    (runTS (freshTQ 2) [.put 5 10, .put 5 20, .get 5, .get 5]).2
      = [(0, some 10), (0, some 20)] ∧
    ¬ ((runTS (freshTQ 2) [.put 5 10, .put 5 20, .get 5, .get 5]).2.getD 1
        (0, none)).1 = AVERROR_BUG := by
  constructor
  · decide
  · decide

end QSV
